import Mathlib

/-!
# A verification development for the suru-lang front end

This file gives a shallow embedding, in Lean 4, of the compile-time pipeline
of the Suru language implementation (lexer, parser, AST builder, tree-walking
interpreter, formatter, string interning store), translated function by
function from the C sources (`src/lexer.c`, `src/parser.c`,
`src/ast_builder.c`, `src/interpreter.c`, `src/formatter.c`,
`src/string_storage.c`), together with theorems settling a list of claims
about that code.

Modelling conventions:

* Byte strings are `List Char` (`Str`); all source text is ASCII.
* C `int` node indices (with `-1` as the absent sentinel) are `Int`.
* Interned `String *` handles are modelled by their byte content
  (`Option Str` on tokens); the interning store itself is modelled
  separately, by handle index, for the claims about it.  This is faithful
  because the store gives identity = content equality.
* Loops that advance a scanning position are implemented by structural
  recursion on an explicit gas argument that is always supplied as an upper
  bound on the number of iterations actually available (`length - position`),
  so every definition is executable and kernel-reducible.
* Places where the C program has undefined behaviour (reading an
  uninitialized `Token`) or provably fails to terminate are modelled by the
  distinguished outcomes `LexRes.ub` and `LexRes.diverge`.
-/

set_option maxHeartbeats 4000000
set_option maxRecDepth 100000

namespace Suru

/-- Byte strings: the C sources operate on ASCII byte buffers. -/
abbrev Str := List Char

/-- Helper to write `Str` literals. -/
def str (s : String) : Str := s.data

/-- Token kinds, from `lexer.h` (`TokenType`).  `NOT_KW` models `TOKEN_NOT`,
which is referenced by `parser.c` (`get_operator_precedence`,
`is_unary_operator`); the checked-in `lexer.h` is an older revision that does
not declare it, and the lexer never produces it (there is no `not` keyword in
`read_identifier_or_keyword`).  `PARTIAL_KW` is `TOKEN_PARTIAL`. -/
inductive TokType where
  | EOF | NEWLINE
  | MODULE | IMPORT | EXPORT | RETURN | MATCH | TYPE | TRY | AND | OR
  | TRUE | FALSE | THIS | PARTIAL_KW
  | IDENTIFIER
  | NUMBER_BINARY | NUMBER_OCTAL | NUMBER_HEX | NUMBER_FLOAT | NUMBER
  | COLON | SEMICOLON | COMMA | DOT | PIPE | UNDERSCORE | STAR
  | LPAREN | RPAREN | LBRACE | RBRACE | LBRACKET | RBRACKET
  | LANGLE | RANGLE | PLUS | MINUS
  | STRING | STRING_I_START | STRING_I_END | STRING_I | STRING_I_INDENT
  | STRING_I_EXPR_START | STRING_I_EXPR_END
  | COMMENT | DOCUMENTATION
  | UNKNOWN
  | NOT_KW
  deriving DecidableEq, Repr

/-- A lexer token (`struct Token` in `lexer.h`).  `text` is the interned
byte content (`NULL` pointer = `none`); the C struct also has a `length`
field that no code path ever assigns or reads meaningfully, so it is
omitted. -/
structure Token where
  type : TokType
  text : Option Str
  line : Nat
  column : Nat
  deriving DecidableEq, Repr

/-! ## String storage (`string_storage.c`)

The store is a linked list of records appended at the tail; a handle is
modelled by the index of its record in that list (the C handle is the
address of the record, which is in bijection with the index). -/

/-- The interning store: the list of stored byte strings, in insertion
order (`StringStorage`'s linked list from head to tail). -/
abbrev StringStore := List Str

/-- `string_storage_init`: the empty store. -/
def string_storage_init : StringStore := []

/-- `strings_equal`: length fast-reject then `memcmp`; on `List Char` this
is just equality. -/
def strings_equal (a b : Str) : Bool := a == b

/-- `find_string`: walk the list from the head, returning the handle (index)
of the first record whose content equals `data`. -/
def find_string : StringStore → Str → Option Nat
  | [], _ => none
  | s :: rest, data =>
    if strings_equal s data then some 0
    else (find_string rest data).map (· + 1)

/-- `create_string`: append a fresh record at the tail; its handle is the
previous length of the list. -/
def create_string (store : StringStore) (data : Str) : Nat × StringStore :=
  (store.length, store ++ [data])

/-- `store_from_buffer`: return the handle of an existing match, otherwise
intern a fresh copy.  (The C function receives `(buffer, start, count)` and
interns `buffer[start .. start+count)`; here the slice is the argument.) -/
def store_from_buffer (store : StringStore) (data : Str) : Nat × StringStore :=
  match find_string store data with
  | some h => (h, store)
  | none => create_string store data

/-- Stores reachable from some initial store by a sequence of
`store_from_buffer` calls (an arbitrary interleaving of intern operations). -/
inductive StoreReach : StringStore → StringStore → Prop where
  | refl (s : StringStore) : StoreReach s s
  | step (s t : StringStore) (x : Str) :
      StoreReach s t → StoreReach s (store_from_buffer t x).2

/-! ## Lexer (`lexer.c`)

State fields are the ones `lexer.c` actually uses: the checked-in `lexer.h`
is an older revision that declares `in_expression` instead of the
`brace_depth` field the implementation reads and writes. -/

/-- The lexer state (`struct Lexer`, per the fields used by `lexer.c`).
`is_multiline_string` is an `int` used as a flag, modelled as `Bool`;
`in_string_interpolation` and `brace_depth` never go negative (verified by
inspection of every assignment), so they are `Nat`. -/
structure LexState where
  source : Str
  position : Nat
  line : Nat
  column : Nat
  in_string_interpolation : Nat
  is_multiline_string : Bool
  brace_depth : Nat
  deriving DecidableEq, Repr

/-- The result of `next_token`.  `ub` models the code path that returns an
uninitialized `Token` (the single-character `switch` at the end of
`next_token` has no `default` case and the `TOKEN_UNKNOWN` return after it
is unreachable); `diverge` models code paths that provably loop forever
(the `read_doc` scanning loops at end of input, and the self-recursion of
`read_string_interpolation_content` at an unchanged position). -/
inductive LexRes where
  | ok (t : Token) (st : LexState)
  | ub
  | diverge
  deriving DecidableEq, Repr

/-- `current_char`: the byte at the current position, `'\0'` at or beyond
the end (the buffer from `read_file` is NUL-terminated). -/
def charAt (src : Str) (pos : Nat) : Char :=
  match src.get? pos with
  | some c => c
  | none => Char.ofNat 0

def current_char (st : LexState) : Char := charAt st.source st.position

/-- `peek_char`. -/
def peek_char (st : LexState) (off : Nat) : Char :=
  charAt st.source (st.position + off)

/-- `advance_lexer`: advance one byte, maintaining line/column; no-op at or
past the end of input. -/
def advance_lexer (st : LexState) : LexState :=
  if st.position < st.source.length then
    if charAt st.source st.position = '\n' then
      { st with line := st.line + 1, column := 1, position := st.position + 1 }
    else
      { st with column := st.column + 1, position := st.position + 1 }
  else st

/-- Advance `n` times. -/
def advanceN : Nat → LexState → LexState
  | 0, st => st
  | n + 1, st => advanceN n (advance_lexer st)

/-- ASCII classifier for C `isalpha` (default locale). -/
def isalpha (c : Char) : Bool :=
  ('a' ≤ c && c ≤ 'z') || ('A' ≤ c && c ≤ 'Z')

/-- ASCII classifier for C `isupper`. -/
def isupper (c : Char) : Bool := 'A' ≤ c && c ≤ 'Z'

/-- ASCII classifier for C `isalnum`. -/
def isalnum (c : Char) : Bool := isalpha c || ('0' ≤ c && c ≤ '9')

/-- `is_identifier_start`. -/
def is_identifier_start (c : Char) : Bool := isalpha c || c = '_'

/-- `is_identifier_char`. -/
def is_identifier_char (c : Char) : Bool := isalnum c || c = '_'

/-- `is_digit`. -/
def is_digit (c : Char) : Bool := '0' ≤ c && c ≤ '9'

/-- `skip_whitespace`: skip spaces, tabs and carriage returns (not
newlines).  Gas-recursive; the gas is an upper bound on the remaining
bytes, so the function agrees with the C loop. -/
def skip_whitespace_go : Nat → LexState → LexState
  | 0, st => st
  | gas + 1, st =>
    if st.position < st.source.length then
      let c := current_char st
      if c = ' ' || c = '\t' || c = '\r' then
        skip_whitespace_go gas (advance_lexer st)
      else st
    else st

def skip_whitespace (st : LexState) : LexState :=
  skip_whitespace_go (st.source.length - st.position) st

/-- `new_token`: a token with no text, stamped with the lexer's current
line/column. -/
def new_token (type : TokType) (st : LexState) : Token :=
  { type := type, text := none, line := st.line, column := st.column }

/-- The byte slice `source[start .. stop)`. -/
def slice (src : Str) (start stop : Nat) : Str :=
  (src.drop start).take (stop - start)

/-- `new_token_from_text`: token whose text is the interned slice from
`start` to the current position (the interning itself is modelled
separately; tokens carry the byte content). -/
def new_token_from_text (type : TokType) (st : LexState) (start : Nat) : Token :=
  { type := type, text := some (slice st.source start st.position),
    line := st.line, column := st.column }

/-- `new_token_from_val`: token whose text is the decimal representation of
`value` (`snprintf "%d"`). -/
def new_token_from_val (type : TokType) (st : LexState) (value : Nat) : Token :=
  { type := type, text := some (Nat.repr value).data,
    line := st.line, column := st.column }

/-- The identifier-run loop of `read_identifier_or_keyword`. -/
def read_ident_go : Nat → LexState → LexState
  | 0, st => st
  | gas + 1, st =>
    if is_identifier_char (current_char st) then
      read_ident_go gas (advance_lexer st)
    else st

/-- `read_identifier_or_keyword`: scan the identifier run, then do keyword
lookup grouped by length unless the first character is uppercase or the
lexeme is longer than 7 bytes. -/
def read_identifier_or_keyword (st : LexState) : Token × LexState :=
  let start := st.position
  let st := read_ident_go (st.source.length - st.position) st
  let text := slice st.source start st.position
  let length := st.position - start
  if isupper (charAt st.source start) || length > 7 then
    (new_token_from_text .IDENTIFIER st start, st)
  else
    let kw : Option TokType :=
      match length with
      | 7 => if text = str "partial" then some .PARTIAL_KW else none
      | 6 =>
        if text = str "module" then some .MODULE
        else if text = str "import" then some .IMPORT
        else if text = str "export" then some .EXPORT
        else if text = str "return" then some .RETURN
        else none
      | 5 =>
        if text = str "match" then some .MATCH
        else if text = str "false" then some .FALSE
        else none
      | 4 =>
        if text = str "type" then some .TYPE
        else if text = str "true" then some .TRUE
        else if text = str "this" then some .THIS
        else none
      | 3 =>
        if text = str "and" then some .AND
        else if text = str "try" then some .TRY
        else none
      | 2 => if text = str "or" then some .OR else none
      | _ => none
    match kw with
    | some t => (new_token t st, st)
    | none => (new_token_from_text .IDENTIFIER st start, st)

/-- Generic digit-run loop used by `read_number` (one loop per base in the
C; the predicate selects the accepted characters). -/
def read_digits_go (p : Char → Bool) : Nat → LexState → LexState
  | 0, st => st
  | gas + 1, st =>
    if p (current_char st) then
      read_digits_go p gas (advance_lexer st)
    else st

def read_digits (p : Char → Bool) (st : LexState) : LexState :=
  read_digits_go p (st.source.length - st.position) st

/-- `read_type_suffix`: consume `i/u/f` width suffixes when immediately
followed by a non-identifier character. -/
def read_type_suffix (st : LexState) : LexState :=
  let c := current_char st
  if c = 'i' || c = 'u' || c = 'f' then
    let next1 := peek_char st 1
    let next2 := peek_char st 2
    let next3 := peek_char st 3
    if c = 'i' || c = 'u' then
      if next1 = '8' && !is_identifier_char next2 then
        advanceN 2 st
      else if next1 = '1' && next2 = '6' && !is_identifier_char next3 then
        advanceN 3 st
      else if next1 = '3' && next2 = '2' && !is_identifier_char next3 then
        advanceN 3 st
      else if next1 = '6' && next2 = '4' && !is_identifier_char next3 then
        advanceN 3 st
      else if next1 = '1' && next2 = '2' && next3 = '8' then
        if !is_identifier_char (peek_char st 4) then advanceN 4 st else st
      else st
    else
      if next1 = '1' && next2 = '6' && !is_identifier_char next3 then
        advanceN 3 st
      else if next1 = '3' && next2 = '2' && !is_identifier_char next3 then
        advanceN 3 st
      else if next1 = '6' && next2 = '4' && !is_identifier_char next3 then
        advanceN 3 st
      else if next1 = '1' && next2 = '2' && next3 = '8' then
        if !is_identifier_char (peek_char st 4) then advanceN 4 st else st
      else st
  else st

/-- `read_number`. -/
def read_number (st : LexState) : Token × LexState :=
  let start := st.position
  if current_char st = '0' && peek_char st 1 = 'b' then
    let st := advanceN 2 st
    let st := read_digits (fun c => c = '0' || c = '1' || c = '_') st
    let st := read_type_suffix st
    (new_token_from_text .NUMBER_BINARY st start, st)
  else if current_char st = '0' && peek_char st 1 = 'o' then
    let st := advanceN 2 st
    let st := read_digits (fun c => ('0' ≤ c && c ≤ '7') || c = '_') st
    let st := read_type_suffix st
    (new_token_from_text .NUMBER_OCTAL st start, st)
  else if current_char st = '0' && peek_char st 1 = 'x' then
    let st := advanceN 2 st
    let st := read_digits
      (fun c => ('0' ≤ c && c ≤ '9') || ('a' ≤ c && c ≤ 'f') ||
        ('A' ≤ c && c ≤ 'F') || c = '_') st
    let st := read_type_suffix st
    (new_token_from_text .NUMBER_HEX st start, st)
  else
    let st := read_digits (fun c => is_digit c || c = '_') st
    if current_char st = '.' && is_digit (peek_char st 1) then
      let st := advance_lexer st
      let st := read_digits is_digit st
      let st := read_type_suffix st
      (new_token_from_text .NUMBER_FLOAT st start, st)
    else
      let st := read_type_suffix st
      (new_token_from_text .NUMBER st start, st)

/-- The scan loop of `read_comment`: to (but not past) the newline or end
of input. -/
def read_comment_go : Nat → LexState → LexState
  | 0, st => st
  | gas + 1, st =>
    let c := current_char st
    if c ≠ '\n' && c ≠ Char.ofNat 0 then
      read_comment_go gas (advance_lexer st)
    else st

/-- `read_comment`. -/
def read_comment (st : LexState) : Token × LexState :=
  let start := st.position
  let st := advance_lexer (advance_lexer st)
  let st := read_comment_go (st.source.length - st.position) st
  (new_token_from_text .COMMENT st start, st)

/-- The scan loop of `read_string`: each iteration advances one byte, or
two for a backslash escape. -/
def read_string_go (quote : Char) : Nat → LexState → LexState
  | 0, st => st
  | gas + 1, st =>
    let c := current_char st
    if c ≠ quote && c ≠ Char.ofNat 0 then
      if current_char st = '\\' then
        read_string_go quote gas (advance_lexer (advance_lexer st))
      else
        read_string_go quote gas (advance_lexer st)
    else st

/-- `read_string`: ordinary quoted string; the token text includes both
quote bytes.  Truncates silently at end of input. -/
def read_string (st : LexState) (quote : Char) : Token × LexState :=
  let start := st.position
  let st := advance_lexer st
  let st := read_string_go quote (st.source.length - st.position) st
  let st := if current_char st = quote then advance_lexer st else st
  (new_token_from_text .STRING st start, st)

/-- Counting loop shared by `count_backticks`, `count_open_braces`,
`count_close_braces`: the length of the run of `target` bytes starting at
`pos + acc`.  The gas is an upper bound on the run length (the NUL byte at
or past the end of the buffer stops the C loop). -/
def count_run_go (target : Char) (src : Str) (pos : Nat) : Nat → Nat → Nat
  | 0, acc => acc
  | gas + 1, acc =>
    if charAt src (pos + acc) = target then
      count_run_go target src pos gas (acc + 1)
    else acc

/-- Length of the run of `target` bytes starting at `pos` in `src`. -/
def count_run (target : Char) (src : Str) (pos : Nat) : Nat :=
  count_run_go target src pos (src.length + 1 - pos) 0

def count_backticks (st : LexState) : Nat :=
  count_run '`' st.source st.position

def count_open_braces (st : LexState) : Nat :=
  count_run '{' st.source st.position

def count_close_braces (st : LexState) : Nat :=
  count_run '}' st.source st.position

/-- `read_string_interpolation_start`. -/
def read_string_interpolation_start (st : LexState) : Token × LexState :=
  let backtick_count := count_backticks st
  let st := advanceN backtick_count st
  let st :=
    if current_char st = '\n' then
      advance_lexer { st with is_multiline_string := true }
    else
      { st with is_multiline_string := false }
  let st := { st with in_string_interpolation := backtick_count }
  (new_token_from_val .STRING_I_START st backtick_count, st)

/-- The whitespace-count lookahead loop in
`read_string_interpolation_content`. -/
def count_ws_run_go (src : Str) (pos : Nat) : Nat → Nat → Nat
  | 0, acc => acc
  | gas + 1, acc =>
    if charAt src (pos + acc) = ' ' || charAt src (pos + acc) = '\t' then
      count_ws_run_go src pos gas (acc + 1)
    else acc

/-- The whitespace-count lookahead in `read_string_interpolation_content`:
the length of the run of spaces/tabs starting at `pos` (the C indexes the
raw buffer; the NUL terminator stops the loop at end of input). -/
def count_ws_run (src : Str) (pos : Nat) : Nat :=
  count_ws_run_go src pos (src.length + 1) 0

/-- The `has_closing` check: `backtick_count` backticks starting at `pos`. -/
def has_closing_at (src : Str) (pos : Nat) (backtick_count : Nat) : Bool :=
  (List.range backtick_count).all (fun i => charAt src (pos + i) = '`')

/-- The indentation-consuming loop in the multiline branch. -/
def consume_ws_go : Nat → LexState → LexState
  | 0, st => st
  | gas + 1, st =>
    if current_char st = ' ' || current_char st = '\t' then
      consume_ws_go gas (advance_lexer st)
    else st

/-- The main content-scanning loop of `read_string_interpolation_content`
(the `while (current_char(lexer) != '\0')` loop).  Returns either a token
(plus successor state) or the state at which the loop exited via `break`
(`Sum.inr`), in which case the code after the loop runs.  `.inl .diverge`
models the self-recursion at an unchanged position (an infinite loop in C,
unreachable from `next_token` because the caller has already ruled out an
opening-brace run at the start). -/
def rsic_loop (start backtick_count : Nat) : Nat → LexState → LexRes ⊕ LexState
  | 0, st => .inr st
  | gas + 1, st =>
    if current_char st ≠ Char.ofNat 0 then
      let c := current_char st
      let backtick_check := count_backticks st
      if backtick_check ≥ backtick_count then
        if st.position > start then
          .inl (.ok (new_token_from_text .STRING_I st start) st)
        else
          .inr st
      else
      let brace_count := count_open_braces st
      if brace_count ≥ backtick_count then
        if st.position > start then
          .inl (.ok (new_token_from_text .STRING_I st start) st)
        else
          .inl .diverge
      else
      if c = '\\' then
        let st := advance_lexer st
        let st := if current_char st ≠ Char.ofNat 0 then advance_lexer st else st
        rsic_loop start backtick_count gas st
      else if c = '\n' && st.is_multiline_string then
        let look_pos := 1 + count_ws_run st.source (st.position + 1)
        let has_closing := has_closing_at st.source (st.position + look_pos) backtick_count
        if has_closing && st.position > start then
          let token := new_token_from_text .STRING_I st start
          .inl (.ok token (advance_lexer st))
        else
          rsic_loop start backtick_count gas (advance_lexer st)
      else if c = '\n' && !st.is_multiline_string then
        .inr st
      else
        rsic_loop start backtick_count gas (advance_lexer st)
    else .inr st

/-- `read_string_interpolation_content`. -/
def read_string_interpolation_content (st : LexState) : LexRes :=
  let start := st.position
  let backtick_count := st.in_string_interpolation
  -- multiline, at the start of a line: look for the closing delimiter
  -- (with or without indentation)
  let multiline_result : Option LexRes :=
    if st.is_multiline_string && st.column = 1 then
      let temp_pos := count_ws_run st.source st.position
      let has_closing := has_closing_at st.source (st.position + temp_pos) backtick_count
      if has_closing && temp_pos > 0 then
        let st := consume_ws_go (st.source.length - st.position) st
        some (.ok (new_token_from_text .STRING_I_INDENT st start) st)
      else if has_closing && temp_pos = 0 then
        let st := advanceN backtick_count st
        let st := { st with in_string_interpolation := 0, is_multiline_string := false }
        some (.ok (new_token_from_val .STRING_I_END st backtick_count) st)
      else none
    else none
  match multiline_result with
  | some r => r
  | none =>
    let closing_backticks := count_backticks st
    if closing_backticks ≥ backtick_count then
      let st := advanceN backtick_count st
      let st := { st with in_string_interpolation := 0, is_multiline_string := false }
      .ok (new_token_from_val .STRING_I_END st backtick_count) st
    else
      match rsic_loop start backtick_count (st.source.length - st.position + 2) st with
      | .inl r => r
      | .inr st =>
        if st.position > start then
          .ok (new_token_from_text .STRING_I st start) st
        else
          .ok (new_token .UNKNOWN st) st

/-- `is_end_of_doc`. -/
def is_end_of_doc (st : LexState) : Bool :=
  (current_char st = '\n' && peek_char st 1 = '=' && peek_char st 2 = '=' &&
    peek_char st 3 = '=') ||
  (current_char st = '\n' && peek_char st 1 = '\r' && peek_char st 2 = '=' &&
    peek_char st 3 = '=' && peek_char st 4 = '=')

/-- `while (current_char(lexer) != '\n') advance;` — at end of input
`current_char` is `'\0'` and `advance_lexer` is a no-op, so the C loop
never exits: modelled as divergence. -/
def scan_to_newline_go : Nat → LexState → Option LexState
  | 0, _ => none
  | gas + 1, st =>
    if current_char st = '\n' then some st
    else if st.position < st.source.length then
      scan_to_newline_go gas (advance_lexer st)
    else none

def scan_to_newline (st : LexState) : Option LexState :=
  scan_to_newline_go (st.source.length - st.position + 1) st

/-- `while (!is_end_of_doc(lexer)) advance;` with the same divergence at
end of input. -/
def scan_to_end_of_doc_go : Nat → LexState → Option LexState
  | 0, _ => none
  | gas + 1, st =>
    if is_end_of_doc st then some st
    else if st.position < st.source.length then
      scan_to_end_of_doc_go gas (advance_lexer st)
    else none

def scan_to_end_of_doc (st : LexState) : Option LexState :=
  scan_to_end_of_doc_go (st.source.length - st.position + 1) st

/-- `read_doc`: a `====` documentation block.  If any of its scanning loops
reaches end of input without its stop condition, the C loops forever. -/
def read_doc (st : LexState) : LexRes :=
  let start := st.position
  match scan_to_newline st with
  | none => .diverge
  | some st =>
    match scan_to_end_of_doc st with
    | none => .diverge
    | some st =>
      let st := advance_lexer st
      match scan_to_newline st with
      | none => .diverge
      | some st => .ok (new_token_from_text .DOCUMENTATION st start) st

/-- The trailing single-character `switch` of `next_token`.  There is no
`default` case: for any byte not listed, the C function falls through with
an *uninitialized* `Token` (the `return new_token(TOKEN_UNKNOWN, lexer);`
after the switch is unreachable dead code), modelled as `.ub`. -/
def single_char_token (st : LexState) (c : Char) : LexRes :=
  let mk (t : TokType) : LexRes := .ok (new_token t st) (advance_lexer st)
  if c = ':' then mk .COLON
  else if c = ';' then mk .SEMICOLON
  else if c = ',' then mk .COMMA
  else if c = '.' then mk .DOT
  else if c = '|' then mk .PIPE
  else if c = '*' then mk .STAR
  else if c = '(' then mk .LPAREN
  else if c = ')' then mk .RPAREN
  else if c = '{' then mk .LBRACE
  else if c = '}' then mk .RBRACE
  else if c = '[' then mk .LBRACKET
  else if c = ']' then mk .RBRACKET
  else if c = '<' then mk .LANGLE
  else if c = '>' then mk .RANGLE
  else if c = '+' then mk .PLUS
  else if c = '-' then mk .MINUS
  else .ub

/-- The ordinary (non-interpolation) scanning part of `next_token`,
beginning at `skip_whitespace`.  The interpolation expression branch falls
through to this code. -/
def next_token_normal (st : LexState) : LexRes :=
  let st := skip_whitespace st
  if st.position ≥ st.source.length then
    .ok (new_token .EOF st) st
  else
    let c := current_char st
    if c = '\n' then
      .ok (new_token .NEWLINE st) (advance_lexer st)
    else if c = '/' && peek_char st 1 = '/' then
      let (t, st') := read_comment st
      .ok t st'
    else if c = '_' && !isalpha (peek_char st 1) then
      .ok (new_token .UNDERSCORE st) (advance_lexer st)
    else if is_identifier_start c then
      let (t, st') := read_identifier_or_keyword st
      .ok t st'
    else if is_digit c then
      let (t, st') := read_number st
      .ok t st'
    else if c = '"' || c = '\'' then
      let (t, st') := read_string st c
      .ok t st'
    else if c = '`' then
      let (t, st') := read_string_interpolation_start st
      .ok t st'
    else if c = '=' && peek_char st 1 = '=' && peek_char st 2 = '=' &&
        peek_char st 3 = '=' then
      read_doc st
    else
      single_char_token st c

/-- `next_token`. -/
def next_token (st : LexState) : LexRes :=
  if st.in_string_interpolation > 0 then
    if st.brace_depth > 0 then
      -- inside an embedded expression: normal tokenization, tracking braces
      let st := skip_whitespace st
      if st.position ≥ st.source.length then
        .ok (new_token .EOF st) st
      else
        let c := current_char st
        let close_brace_count := count_close_braces st
        if close_brace_count ≥ st.in_string_interpolation && st.brace_depth = 1 then
          let st := advanceN st.in_string_interpolation st
          let st := { st with brace_depth := 0 }
          .ok (new_token .STRING_I_EXPR_END st) st
        else if c = '}' then
          let st := { st with brace_depth := st.brace_depth - 1 }
          .ok (new_token .RBRACE st) (advance_lexer st)
        else if c = '{' then
          let st := { st with brace_depth := st.brace_depth + 1 }
          .ok (new_token .LBRACE st) (advance_lexer st)
        else
          next_token_normal st
    else
      -- string content mode
      let open_brace_count := count_open_braces st
      if open_brace_count ≥ st.in_string_interpolation then
        let st := advanceN st.in_string_interpolation st
        let st := { st with brace_depth := 1 }
        .ok (new_token .STRING_I_EXPR_START st) st
      else
        let backtick_count := count_backticks st
        if backtick_count ≥ st.in_string_interpolation then
          read_string_interpolation_content st
        else
          read_string_interpolation_content st
  else
    next_token_normal st

/-- `create_lexer` state initialization (before the eager first
`next_token`). -/
def create_lexer (source : Str) : LexState :=
  { source := source, position := 0, line := 1, column := 1,
    in_string_interpolation := 0, is_multiline_string := false,
    brace_depth := 0 }

/-- Run the lexer to completion, producing the token stream including the
final `EOF` token.  `none` when the lexer hits undefined behaviour,
diverges, or the gas (an iteration bound, not part of the C) runs out. -/
def tokenize_go : Nat → LexState → Option (List Token)
  | 0, _ => none
  | gas + 1, st =>
    match next_token st with
    | .ok t st' =>
      if t.type = .EOF then some [t]
      else (tokenize_go gas st').map (t :: ·)
    | .ub => none
    | .diverge => none

def tokenize (source : Str) : Option (List Token) :=
  tokenize_go (source.length * 2 + 16) (create_lexer source)

/-! ## Parse tree (`parse_tree.c`)

Parse-node kinds are the ones constructed by `parser.c` and consumed by
`ast_builder.c` and `formatter.c`; the checked-in `parse_tree.h` is an older
revision that declares a different kind set not used by any of those
files. -/

inductive ParseNodeType where
  | NODE_PROGRAM | NODE_FUNCTION_DECL | NODE_VAR_DECL
  | NODE_PARAM_LIST | NODE_PARAM | NODE_BLOCK
  | NODE_CALL_EXPR | NODE_ARG_LIST
  | NODE_AND_EXPR | NODE_OR_EXPR | NODE_PLUS_EXPR | NODE_PIPE_EXPR
  | NODE_NOT_EXPR | NODE_NEGATE_EXPR
  | NODE_MATCH_EXPR | NODE_MATCH_STMT | NODE_MATCH_ARM | NODE_MATCH_WILDCARD
  | NODE_IDENTIFIER | NODE_STRING_LITERAL | NODE_BOOLEAN_LITERAL
  | NODE_COMMENT | NODE_NEWLINE
  deriving DecidableEq, Repr

/-- `struct ParseNode`: first-child/next-sibling representation with `Int`
indices, `-1` meaning absent. -/
structure ParseNode where
  type : ParseNodeType
  token : Token
  first_child : Int
  next_sibling : Int
  parent : Int
  leading_spaces : Nat
  trailing_spaces : Nat
  leading_newlines : Nat
  deriving DecidableEq, Repr

/-- `struct ParseTree` (the node array plus root index). -/
structure PTree where
  nodes : List ParseNode
  root : Int
  deriving DecidableEq, Repr

def create_parse_tree : PTree := { nodes := [], root := -1 }

/-- `create_nonterminal_node`. -/
def create_nonterminal_node (type : ParseNodeType) : ParseNode :=
  { type := type,
    token := { type := .UNKNOWN, text := none, line := 0, column := 0 },
    first_child := -1, next_sibling := -1, parent := -1,
    leading_spaces := 0, trailing_spaces := 0, leading_newlines := 0 }

/-- `create_terminal_node`. -/
def create_terminal_node (type : ParseNodeType) (token : Token) : ParseNode :=
  { type := type, token := token,
    first_child := -1, next_sibling := -1, parent := -1,
    leading_spaces := 0, trailing_spaces := 0, leading_newlines := 0 }

/-- `get_node`: `NULL` for a negative or out-of-range index. -/
def get_node (tree : PTree) (index : Int) : Option ParseNode :=
  if index < 0 then none else tree.nodes.get? index.toNat

/-- In-place node update (the C mutates the node in the backing array). -/
def set_node (tree : PTree) (index : Int) (node : ParseNode) : PTree :=
  if index < 0 then tree
  else { tree with nodes := tree.nodes.set index.toNat node }

/-- `add_node`: append, returning the new node's index; the first node ever
added becomes the root. -/
def add_node (tree : PTree) (node : ParseNode) : Int × PTree :=
  let index : Int := tree.nodes.length
  let tree := { tree with nodes := tree.nodes ++ [node] }
  let tree := if tree.root = -1 then { tree with root := index } else tree
  (index, tree)

/-- The sibling-walk loop of `add_child`: find the last sibling starting at
`sibling_idx` and point its `next_sibling` at `child_idx`.  The gas bounds
the walk; in every tree the parser builds, sibling chains are strictly
increasing in index, so a gas of `nodes.length` is never exhausted. -/
def add_child_go (child_idx : Int) : Nat → PTree → Int → PTree
  | 0, tree, _ => tree
  | gas + 1, tree, sibling_idx =>
    match get_node tree sibling_idx with
    | none => tree
    | some sibling =>
      if sibling.next_sibling ≠ -1 then
        add_child_go child_idx gas tree sibling.next_sibling
      else
        set_node tree sibling_idx { sibling with next_sibling := child_idx }

/-- `add_child`: set the child's parent pointer and append it to the
parent's sibling chain. -/
def add_child (tree : PTree) (parent_idx child_idx : Int) : PTree :=
  if parent_idx < 0 || child_idx < 0 then tree
  else
    match get_node tree parent_idx, get_node tree child_idx with
    | some _parent, some child =>
      let tree := set_node tree child_idx { child with parent := parent_idx }
      -- re-read the parent: the child update cannot alias it only when
      -- parent ≠ child, exactly as in the C where these are two pointers
      match get_node tree parent_idx with
      | none => tree
      | some parent' =>
        if parent'.first_child = -1 then
          set_node tree parent_idx { parent' with first_child := child_idx }
        else
          add_child_go child_idx (tree.nodes.length + 1) tree parent'.first_child
    | _, _ =>
      -- keep the binder used; the C dereferences `parent` only after the
      -- NULL checks
      let _ := parent_idx
      tree

/-! ## Parser (`parser.c`)

The parser is an explicit stack machine.  The C stores frames
`{state, parent_node_idx, current_node_idx, step}`; the `step` sub-state of
the two match states is folded into the state constructor
(`PARSE_MATCH_EXPR` with `step = 1` is `.PARSE_MATCH_EXPR_1`, and so on),
which is exactly the set of `(state, step)` pairs the code constructs. -/

inductive PState where
  | PARSE
  | PARSE_STATEMENT
  | PARSE_FUNCTION_DECL
  | PARSE_VAR_DECL
  | PARSE_PARAM_LIST
  | PARSE_BLOCK
  | PARSE_EXPRESSION
  | PARSE_CALL_ARGS
  | PARSE_MATCH_EXPR_0
  | PARSE_MATCH_EXPR_1
  | PARSE_MATCH_STMT_0
  | PARSE_MATCH_STMT_1
  | PARSE_MATCH_STMT_2
  deriving DecidableEq, Repr

/-- `struct ParserStackFrame` (minus the folded `step`). -/
structure Frame where
  state : PState
  parent : Int
  curr : Int
  deriving DecidableEq, Repr

/-- `struct ParserError`. -/
structure PError where
  line : Nat
  column : Nat
  message : String
  deriving DecidableEq, Repr

/-- The parser configuration: the not-yet-consumed token stream (the lexer
produces tokens on demand, deterministically, so the stream can be taken
up front; an exhausted list stands for the lexer's endless trailing
`EOF`s), the tree, the error list and the frame stack (head = top). -/
structure Cfg where
  tokens : List Token
  tree : PTree
  errors : List PError
  stack : List Frame
  deriving DecidableEq, Repr

/-- The token the lexer reports once the stream is exhausted. -/
def eofToken : Token := { type := .EOF, text := none, line := 0, column := 0 }

/-- `current_token`. -/
def cur (ts : List Token) : Token := ts.headD eofToken

def curType (ts : List Token) : TokType := (cur ts).type

/-- `advance` (at `EOF` the lexer keeps returning `EOF`, i.e. the empty
stream stays empty). -/
def adv (ts : List Token) : List Token := ts.tail

/-- `report_syntax_error`. -/
def report_syntax_error (errors : List PError) (ts : List Token)
    (message : String) : List PError :=
  errors ++ [{ line := (cur ts).line, column := (cur ts).column,
               message := message }]

/-- `skip_to_newline`: advance until `EOF` or `NEWLINE` (not consumed). -/
def skip_to_newline (ts : List Token) : List Token :=
  ts.dropWhile (fun t => ¬(t.type = .EOF ∨ t.type = .NEWLINE))

/-- `new_error`: record the diagnostic, skip to the next newline and
re-enter `PARSE` with the given parent. -/
def new_error (cfg : Cfg) (parent_node_idx : Int) (message : String) : Cfg :=
  { cfg with
    errors := report_syntax_error cfg.errors cfg.tokens message,
    tokens := skip_to_newline cfg.tokens,
    stack := { state := .PARSE, parent := parent_node_idx,
               curr := parent_node_idx } :: cfg.stack }

/-- The trivia loops: consume `COMMENT`/`NEWLINE` tokens, preserving each
as a terminal node under `parent_idx` (used by `PARSE`, `PARSE_PARAM_LIST`,
`PARSE_BLOCK`, `PARSE_CALL_ARGS` and the match-arm loops). -/
def consume_trivia : List Token → PTree → Int → List Token × PTree
  | [], tree, _ => ([], tree)
  | t :: ts, tree, parent_idx =>
    if t.type = .COMMENT || t.type = .NEWLINE then
      let node_type := if t.type = .COMMENT then
        ParseNodeType.NODE_COMMENT else ParseNodeType.NODE_NEWLINE
      let (node_idx, tree) := add_node tree (create_terminal_node node_type t)
      let tree := add_child tree parent_idx node_idx
      consume_trivia ts tree parent_idx
    else (t :: ts, tree)

/-! ### Operator precedence and the expression sub-parser -/

def get_operator_precedence (type : TokType) : Nat :=
  match type with
  | .PIPE => 1
  | .OR => 2
  | .AND => 3
  | .PLUS => 4
  | .DOT => 6
  | .NOT_KW => 5
  | .MINUS => 5
  | _ => 0

def is_binary_operator (type : TokType) : Bool :=
  type = .PIPE || type = .OR || type = .AND || type = .PLUS

def is_unary_operator (type : TokType) : Bool :=
  type = .MINUS || type = .NOT_KW

def get_unary_node_type (op : TokType) : ParseNodeType :=
  match op with
  | .NOT_KW => .NODE_NOT_EXPR
  | .MINUS => .NODE_NEGATE_EXPR
  | _ => .NODE_IDENTIFIER

def get_binary_node_type (op : TokType) : ParseNodeType :=
  match op with
  | .AND => .NODE_AND_EXPR
  | .OR => .NODE_OR_EXPR
  | .PLUS => .NODE_PLUS_EXPR
  | .PIPE => .NODE_PIPE_EXPR
  | _ => .NODE_IDENTIFIER

/-- The pop-while loop inside the shunting-yard operator case: pop
operators with higher (unary, right-assoc) or higher-or-equal (binary,
left-assoc) precedence to the output.  The operator stack has its top at
the head. -/
def sy_pop_ops (current : Token) :
    List Token → List Token → List Token × List Token
  | output, [] => (output, [])
  | output, top :: opstack =>
    let current_prec := get_operator_precedence current.type
    let top_prec := get_operator_precedence top.type
    let should_pop :=
      if is_unary_operator current.type then top_prec > current_prec
      else top_prec ≥ current_prec
    if should_pop then sy_pop_ops current (output ++ [top]) opstack
    else (output, top :: opstack)

/-- A terminator token for the expression sub-parser. -/
def sy_terminator (t : TokType) : Bool :=
  t = .EOF || t = .NEWLINE || t = .COMMA || t = .RPAREN || t = .RBRACE

/-- The token-reading loop of `infix_to_postfix` (the shunting-yard pass).
Returns the postfix token sequence and the remaining token stream.
Structural recursion on the stream; every continuing branch consumes one
token (an exhausted stream reads as `EOF`, a terminator). -/
def shunting_yard_go :
    List Token → List Token → List Token → List Token × List Token
  | [], output, opstack => (output ++ opstack, [])
  | t :: ts', output, opstack =>
    if sy_terminator t.type then
      (output ++ opstack, t :: ts')
    else if t.type = .TRUE || t.type = .FALSE || t.type = .STRING ||
        t.type = .IDENTIFIER then
      shunting_yard_go ts' (output ++ [t]) opstack
    else if is_unary_operator t.type || is_binary_operator t.type then
      let (output, opstack) := sy_pop_ops t output opstack
      shunting_yard_go ts' output (t :: opstack)
    else
      (output ++ opstack, t :: ts')

/-- `infix_to_postfix`: the infix-to-postfix conversion. -/
def shunting_yard (ts : List Token) : List Token × List Token :=
  shunting_yard_go ts [] []

/-- The folding loop of `build_expr_tree_from_postfix`; `node_stack` keeps
its top at the head.  Nodes created before a failure stay in the tree,
exactly as in the C (only the index stack is discarded). -/
def build_expr_go : List Token → PTree → List Int → Int × PTree
  | [], tree, node_stack =>
    match node_stack with
    | [result_idx] => (result_idx, tree)
    | _ => (-1, tree)
  | token :: rest, tree, node_stack =>
    if is_unary_operator token.type then
      match node_stack with
      | [] => (-1, tree)
      | operand_idx :: node_stack =>
        let node_type := get_unary_node_type token.type
        let (unary_idx, tree) := add_node tree (create_nonterminal_node node_type)
        let tree := add_child tree unary_idx operand_idx
        build_expr_go rest tree (unary_idx :: node_stack)
    else if is_binary_operator token.type then
      match node_stack with
      | right_idx :: left_idx :: node_stack =>
        let node_type := get_binary_node_type token.type
        let (binary_idx, tree) := add_node tree (create_nonterminal_node node_type)
        let tree := add_child tree binary_idx left_idx
        let tree := add_child tree binary_idx right_idx
        build_expr_go rest tree (binary_idx :: node_stack)
      | _ => (-1, tree)
    else
      let (operand_idx, tree) : Int × PTree :=
        if token.type = .TRUE || token.type = .FALSE then
          add_node tree (create_terminal_node .NODE_BOOLEAN_LITERAL token)
        else if token.type = .STRING then
          add_node tree (create_terminal_node .NODE_STRING_LITERAL token)
        else if token.type = .IDENTIFIER then
          add_node tree (create_terminal_node .NODE_IDENTIFIER token)
        else (-1, tree)
      if operand_idx ≠ -1 then
        build_expr_go rest tree (operand_idx :: node_stack)
      else
        build_expr_go rest tree node_stack

/-- `build_expr_tree_from_postfix`: build the expression tree from the
postfix sequence and attach it to `parent_idx`; `-1` on failure. -/
def build_expr_tree (tree : PTree) (pfx : List Token) (parent_idx : Int) :
    Int × PTree :=
  let (result_idx, tree) := build_expr_go pfx tree []
  if result_idx = -1 then (-1, tree)
  else (result_idx, add_child tree parent_idx result_idx)

/-! ### The state-machine cases of `parse` -/

/-- The `PARSE` case: absorb trivia into the current parent, stop at `EOF`,
enter `PARSE_STATEMENT` on an identifier (with a `PARSE` continuation),
otherwise report an error. -/
def step_parse (f : Frame) (rest : List Frame) (cfg : Cfg) : Cfg :=
  let (ts, tree) := consume_trivia cfg.tokens cfg.tree f.parent
  let cfg := { cfg with tokens := ts, tree := tree, stack := rest }
  if curType cfg.tokens = .EOF then cfg
  else if curType cfg.tokens = .IDENTIFIER then
    { cfg with
      stack :=
        { state := .PARSE_STATEMENT, parent := f.parent, curr := -1 } ::
        { state := .PARSE, parent := f.parent, curr := f.parent } :: rest }
  else new_error cfg f.parent "Expected function declaration"

/-- The `PARSE_STATEMENT` case: `identifier (':' | '(')` decides between
function declaration, variable declaration and call expression. -/
def step_statement (f : Frame) (rest : List Frame) (cfg : Cfg) : Cfg :=
  let cfg := { cfg with stack := rest }
  if curType cfg.tokens ≠ .IDENTIFIER then
    new_error cfg f.parent "Expected identifier"
  else
    let id_token := cur cfg.tokens
    let ts := adv cfg.tokens
    if curType ts = .COLON then
      let ts := adv ts
      if curType ts = .LPAREN then
        let (func_idx, tree) :=
          add_node cfg.tree (create_nonterminal_node .NODE_FUNCTION_DECL)
        let tree := add_child tree f.parent func_idx
        let (id_idx, tree) :=
          add_node tree (create_terminal_node .NODE_IDENTIFIER id_token)
        let tree := add_child tree func_idx id_idx
        { cfg with
          tokens := ts
          tree := tree
          stack := { state := .PARSE_FUNCTION_DECL, parent := func_idx,
                     curr := func_idx } :: rest }
      else
        let (var_idx, tree) :=
          add_node cfg.tree (create_nonterminal_node .NODE_VAR_DECL)
        let tree := add_child tree f.parent var_idx
        let (id_idx, tree) :=
          add_node tree (create_terminal_node .NODE_IDENTIFIER id_token)
        let tree := add_child tree var_idx id_idx
        { cfg with
          tokens := ts
          tree := tree
          stack := { state := .PARSE_VAR_DECL, parent := var_idx,
                     curr := var_idx } :: rest }
    else if curType ts = .LPAREN then
      let (call_idx, tree) :=
        add_node cfg.tree (create_nonterminal_node .NODE_CALL_EXPR)
      let tree := add_child tree f.parent call_idx
      let (id_idx, tree) :=
        add_node tree (create_terminal_node .NODE_IDENTIFIER id_token)
      let tree := add_child tree call_idx id_idx
      { cfg with
        tokens := ts
        tree := tree
        stack := { state := .PARSE_CALL_ARGS, parent := call_idx,
                   curr := -1 } :: rest }
    else
      new_error { cfg with tokens := ts } f.parent
        "Expected ':' or '(' after identifier"

/-- The `PARSE_FUNCTION_DECL` case: push `PARSE_BLOCK` then
`PARSE_PARAM_LIST` (LIFO: the parameter list parses first). -/
def step_function_decl (f : Frame) (rest : List Frame) (cfg : Cfg) : Cfg :=
  let cfg := { cfg with stack := rest }
  if f.curr = -1 then
    new_error cfg f.parent "Invalid function declaration state"
  else
    { cfg with
      stack :=
        { state := .PARSE_PARAM_LIST, parent := f.curr, curr := -1 } ::
        { state := .PARSE_BLOCK, parent := f.curr, curr := -1 } :: rest }

/-- The `PARSE_VAR_DECL` case: push `PARSE_EXPRESSION` for the value. -/
def step_var_decl (f : Frame) (rest : List Frame) (cfg : Cfg) : Cfg :=
  let cfg := { cfg with stack := rest }
  if f.curr = -1 then
    new_error cfg f.parent "Invalid variable declaration state"
  else
    { cfg with
      stack :=
        { state := .PARSE_EXPRESSION, parent := f.curr, curr := -1 } :: rest }

/-- The `PARSE_PARAM_LIST` case: `'('` trivia `')'` (the current dialect
only has empty parameter lists). -/
def step_param_list (f : Frame) (rest : List Frame) (cfg : Cfg) : Cfg :=
  let (param_list_idx, tree) :=
    add_node cfg.tree (create_nonterminal_node .NODE_PARAM_LIST)
  let tree := add_child tree f.parent param_list_idx
  let cfg := { cfg with tree := tree, stack := rest }
  if curType cfg.tokens ≠ .LPAREN then
    new_error cfg param_list_idx "Expected '(' for parameter list"
  else
    let ts := adv cfg.tokens
    let (ts, tree) := consume_trivia ts cfg.tree param_list_idx
    let cfg := { cfg with tokens := ts, tree := tree }
    if curType ts = .RPAREN then
      { cfg with tokens := adv ts }
    else
      new_error cfg param_list_idx "Expected ')' after parameter list"

/-- The statement loop of `PARSE_BLOCK`, plus the code after it.  Exits:
consume `'}'`; an error at `EOF` (`Expected '}' at end of block`); a pushed
continuation for a statement; an error recovery inside the loop. -/
def block_loop (block_idx fparent : Int) (rest : List Frame) :
    List Token → PTree → List PError → Cfg
  | [], tree, errors =>
    -- the stream reads as EOF: the loop exits and the `'}'` check fails
    new_error { tokens := [], tree := tree, errors := errors, stack := rest }
      block_idx "Expected '\x7d' at end of block"
  | t :: ts, tree, errors =>
    if t.type = .RBRACE then
      { tokens := ts, tree := tree, errors := errors, stack := rest }
    else if t.type = .EOF then
      new_error {
                  tokens := t :: ts
                  tree := tree
                  errors := errors
                  stack := rest } block_idx "Expected '\x7d' at end of block"
    else if t.type = .COMMENT || t.type = .NEWLINE then
      let node_type := if t.type = .COMMENT then
        ParseNodeType.NODE_COMMENT else ParseNodeType.NODE_NEWLINE
      let (node_idx, tree) := add_node tree (create_terminal_node node_type t)
      let tree := add_child tree block_idx node_idx
      block_loop block_idx fparent rest ts tree errors
    else if t.type = .MATCH then
      { tokens := t :: ts, tree := tree, errors := errors, stack :=
          { state := .PARSE_MATCH_STMT_0, parent := block_idx, curr := -1 } ::
          { state := .PARSE_BLOCK, parent := fparent, curr := block_idx } ::
          rest }
    else if t.type = .IDENTIFIER then
      { tokens := t :: ts, tree := tree, errors := errors, stack :=
          { state := .PARSE_STATEMENT, parent := block_idx, curr := -1 } ::
          { state := .PARSE_BLOCK, parent := fparent, curr := block_idx } ::
          rest }
    else
      -- unknown token: record, skip to newline; then the after-loop code
      -- reports a missing `'}'` when the recovery landed on `EOF`
      let c0 : Cfg := { tokens := t :: ts, tree := tree, errors := errors, stack := rest }
      let cfg := new_error c0 block_idx "Unexpected token in block"
      if ¬(curType cfg.tokens = .RBRACE) ∧ ¬(curType cfg.tokens = .EOF) then
        cfg
      else if curType cfg.tokens ≠ .RBRACE then
        new_error cfg block_idx "Expected '\x7d' at end of block"
      else
        { cfg with tokens := adv cfg.tokens }

/-- The `PARSE_BLOCK` case: on first entry (`current_node_idx = -1`) create
the node and consume `'{'`; then run the statement loop. -/
def step_block (f : Frame) (rest : List Frame) (cfg : Cfg) : Cfg :=
  if f.curr = -1 then
    let (block_idx, tree) :=
      add_node cfg.tree (create_nonterminal_node .NODE_BLOCK)
    let tree := add_child tree f.parent block_idx
    let cfg := { cfg with tree := tree, stack := rest }
    if curType cfg.tokens ≠ .LBRACE then
      new_error cfg block_idx "Expected '\x7b' for block"
    else
      block_loop block_idx f.parent rest (adv cfg.tokens) tree cfg.errors
  else
    block_loop f.curr f.parent rest cfg.tokens cfg.tree cfg.errors

/-- The `PARSE_EXPRESSION` case: a match expression, or the shunting-yard
sub-parser followed by tree construction from the postfix sequence. -/
def step_expression (f : Frame) (rest : List Frame) (cfg : Cfg) : Cfg :=
  let cfg := { cfg with stack := rest }
  if curType cfg.tokens = .MATCH then
    { cfg with
      stack :=
        { state := .PARSE_MATCH_EXPR_0, parent := f.parent, curr := -1 } ::
        rest }
  else
    let (pfx, ts) := shunting_yard cfg.tokens
    let cfg := { cfg with tokens := ts }
    let (expr_idx, tree) := build_expr_tree cfg.tree pfx f.parent
    let cfg := { cfg with tree := tree }
    if expr_idx = -1 then new_error cfg f.parent "Invalid expression"
    else cfg

/-- The argument loop of `PARSE_CALL_ARGS`, plus the `')'` check after
it. -/
def args_loop (arg_list_idx : Int) (rest : List Frame) :
    List Token → PTree → List PError → Cfg
  | [], tree, errors =>
    new_error { tokens := [], tree := tree, errors := errors, stack := rest }
      arg_list_idx "Expected ')' after arguments"
  | t :: ts, tree, errors =>
    if t.type = .RPAREN then
      { tokens := ts, tree := tree, errors := errors, stack := rest }
    else if t.type = .EOF then
      new_error {
                  tokens := t :: ts
                  tree := tree
                  errors := errors
                  stack := rest } arg_list_idx "Expected ')' after arguments"
    else if t.type = .COMMENT || t.type = .NEWLINE then
      let node_type := if t.type = .COMMENT then
        ParseNodeType.NODE_COMMENT else ParseNodeType.NODE_NEWLINE
      let (node_idx, tree) := add_node tree (create_terminal_node node_type t)
      let tree := add_child tree arg_list_idx node_idx
      args_loop arg_list_idx rest ts tree errors
    else if t.type = .COMMA then
      args_loop arg_list_idx rest ts tree errors
    else if t.type = .STRING then
      let (str_idx, tree) :=
        add_node tree (create_terminal_node .NODE_STRING_LITERAL t)
      let tree := add_child tree arg_list_idx str_idx
      args_loop arg_list_idx rest ts tree errors
    else if t.type = .TRUE || t.type = .FALSE then
      let (bool_idx, tree) :=
        add_node tree (create_terminal_node .NODE_BOOLEAN_LITERAL t)
      let tree := add_child tree arg_list_idx bool_idx
      args_loop arg_list_idx rest ts tree errors
    else if t.type = .IDENTIFIER then
      let (id_idx, tree) :=
        add_node tree (create_terminal_node .NODE_IDENTIFIER t)
      let tree := add_child tree arg_list_idx id_idx
      args_loop arg_list_idx rest ts tree errors
    else
      -- unknown argument: record and skip; then the `')'` check after the
      -- loop reports a second error (the recovery lands on a newline or
      -- `EOF`, never on `')'`)
      let c0 : Cfg := { tokens := t :: ts, tree := tree, errors := errors, stack := rest }
      let cfg := new_error c0 arg_list_idx "Expected argument expression"
      if curType cfg.tokens ≠ .RPAREN then
        new_error cfg arg_list_idx "Expected ')' after arguments"
      else
        { cfg with tokens := adv cfg.tokens }

/-- The `PARSE_CALL_ARGS` case. -/
def step_call_args (f : Frame) (rest : List Frame) (cfg : Cfg) : Cfg :=
  if f.curr = -1 then
    let (arg_list_idx, tree) :=
      add_node cfg.tree (create_nonterminal_node .NODE_ARG_LIST)
    let tree := add_child tree f.parent arg_list_idx
    let cfg := { cfg with tree := tree, stack := rest }
    if curType cfg.tokens ≠ .LPAREN then
      new_error cfg arg_list_idx "Expected '(' for argument list"
    else
      args_loop arg_list_idx rest (adv cfg.tokens) tree cfg.errors
  else
    args_loop f.curr rest cfg.tokens cfg.tree cfg.errors

/-- The `PARSE_MATCH_EXPR` step-0 case: consume `match`, create the node,
parse the inline subject, consume `'{'`, continue at step 1. -/
def step_match_expr_0 (f : Frame) (rest : List Frame) (cfg : Cfg) : Cfg :=
  let cfg := { cfg with stack := rest }
  if curType cfg.tokens ≠ .MATCH then
    new_error cfg f.parent "Expected 'match' keyword"
  else
    let ts := adv cfg.tokens
    let (match_idx, tree) :=
      add_node cfg.tree (create_nonterminal_node .NODE_MATCH_EXPR)
    let tree := add_child tree f.parent match_idx
    let subject : Option (ParseNodeType) :=
      if curType ts = .IDENTIFIER then some .NODE_IDENTIFIER
      else if curType ts = .TRUE || curType ts = .FALSE then
        some .NODE_BOOLEAN_LITERAL
      else if curType ts = .STRING then some .NODE_STRING_LITERAL
      else none
    match subject with
    | none =>
      new_error { cfg with tokens := ts, tree := tree } match_idx
        "Expected expression after 'match'"
    | some subj_type =>
      let (subj_idx, tree) :=
        add_node tree (create_terminal_node subj_type (cur ts))
      let tree := add_child tree match_idx subj_idx
      let ts := adv ts
      let cfg := { cfg with tokens := ts, tree := tree }
      if curType ts ≠ .LBRACE then
        new_error cfg match_idx "Expected '\x7b' after match subject"
      else
        { cfg with
          tokens := adv ts
          stack := { state := .PARSE_MATCH_EXPR_1, parent := match_idx,
                     curr := match_idx } :: rest }

/-- The arm loop of `PARSE_MATCH_EXPR` step 1, plus the `'}'` consumption
after it. -/
def me1_loop (match_idx : Int) (rest : List Frame) :
    List Token → PTree → List PError → Cfg
  | [], tree, errors =>
    { tokens := [], tree := tree, errors := errors, stack := rest }
  | t :: ts, tree, errors =>
    if t.type = .RBRACE then
      { tokens := ts, tree := tree, errors := errors, stack := rest }
    else if t.type = .EOF then
      { tokens := t :: ts, tree := tree, errors := errors, stack := rest }
    else if t.type = .NEWLINE || t.type = .COMMENT then
      let node_type := if t.type = .COMMENT then
        ParseNodeType.NODE_COMMENT else ParseNodeType.NODE_NEWLINE
      let (node_idx, tree) := add_node tree (create_terminal_node node_type t)
      let tree := add_child tree match_idx node_idx
      me1_loop match_idx rest ts tree errors
    else
      let (arm_idx, tree) :=
        add_node tree (create_nonterminal_node .NODE_MATCH_ARM)
      let tree := add_child tree match_idx arm_idx
      let pat : Option ParseNodeType :=
        if t.type = .TRUE || t.type = .FALSE then some .NODE_BOOLEAN_LITERAL
        else if t.type = .STRING then some .NODE_STRING_LITERAL
        else if t.type = .UNDERSCORE then some .NODE_MATCH_WILDCARD
        else none
      match pat with
      | none =>
        -- the recovery lands on a newline or `EOF`, so the `'}'` check
        -- after the loop does nothing
        new_error {
                    tokens := t :: ts
                    tree := tree
                    errors := errors
                    stack := rest } arm_idx "Expected pattern (boolean, string, or '_')"
      | some pattern_type =>
        let (pattern_idx, tree) :=
          add_node tree (create_terminal_node pattern_type t)
        let tree := add_child tree arm_idx pattern_idx
        let cfg : Cfg := { tokens := ts, tree := tree, errors := errors, stack := rest }
        if curType ts ≠ .COLON then
          new_error cfg arm_idx "Expected ':' after pattern"
        else
          -- after pushing the arm frames the loop exits through its `break`,
          -- and the check after the loop consumes an immediate `'}'`
          { cfg with
            tokens := if curType (adv ts) = .RBRACE then adv (adv ts)
              else adv ts
            stack :=
              { state := .PARSE_EXPRESSION, parent := arm_idx, curr := -1 } ::
              { state := .PARSE_MATCH_EXPR_1, parent := match_idx,
                curr := match_idx } :: rest }

/-- The `PARSE_MATCH_EXPR` step-1 case. -/
def step_match_expr_1 (f : Frame) (rest : List Frame) (cfg : Cfg) : Cfg :=
  me1_loop f.curr rest cfg.tokens cfg.tree cfg.errors

/-- The `PARSE_MATCH_STMT` step-0 case: consume `match`, create the node,
sub-parse the subject expression, continue at step 1. -/
def step_match_stmt_0 (f : Frame) (rest : List Frame) (cfg : Cfg) : Cfg :=
  let cfg := { cfg with stack := rest }
  if curType cfg.tokens ≠ .MATCH then
    new_error cfg f.parent "Expected 'match' keyword"
  else
    let ts := adv cfg.tokens
    let (match_idx, tree) :=
      add_node cfg.tree (create_nonterminal_node .NODE_MATCH_STMT)
    let tree := add_child tree f.parent match_idx
    { cfg with
      tokens := ts
      tree := tree
      stack :=
        { state := .PARSE_EXPRESSION, parent := match_idx, curr := -1 } ::
        { state := .PARSE_MATCH_STMT_1, parent := match_idx,
          curr := match_idx } :: rest }

/-- The `PARSE_MATCH_STMT` step-1 case: consume `'{'`, continue at step 2. -/
def step_match_stmt_1 (f : Frame) (rest : List Frame) (cfg : Cfg) : Cfg :=
  let cfg := { cfg with stack := rest }
  if curType cfg.tokens ≠ .LBRACE then
    new_error cfg f.curr "Expected '\x7b' after match subject"
  else
    { cfg with
      tokens := adv cfg.tokens
      stack := { state := .PARSE_MATCH_STMT_2, parent := f.curr,
                 curr := f.curr } :: rest }

/-- The arm loop of `PARSE_MATCH_STMT` step 2, plus the `'}'` consumption
after it. -/
def ms2_loop (match_idx : Int) (rest : List Frame) :
    List Token → PTree → List PError → Cfg
  | [], tree, errors =>
    { tokens := [], tree := tree, errors := errors, stack := rest }
  | t :: ts, tree, errors =>
    if t.type = .RBRACE then
      { tokens := ts, tree := tree, errors := errors, stack := rest }
    else if t.type = .EOF then
      { tokens := t :: ts, tree := tree, errors := errors, stack := rest }
    else if t.type = .NEWLINE || t.type = .COMMENT then
      let node_type := if t.type = .COMMENT then
        ParseNodeType.NODE_COMMENT else ParseNodeType.NODE_NEWLINE
      let (node_idx, tree) := add_node tree (create_terminal_node node_type t)
      let tree := add_child tree match_idx node_idx
      ms2_loop match_idx rest ts tree errors
    else
      let (arm_idx, tree) :=
        add_node tree (create_nonterminal_node .NODE_MATCH_ARM)
      let tree := add_child tree match_idx arm_idx
      let pat : Option ParseNodeType :=
        if t.type = .IDENTIFIER then some .NODE_IDENTIFIER
        else if t.type = .STRING then some .NODE_STRING_LITERAL
        else if t.type = .TRUE || t.type = .FALSE then
          some .NODE_BOOLEAN_LITERAL
        else if t.type = .UNDERSCORE then some .NODE_MATCH_WILDCARD
        else none
      match pat with
      | none =>
        new_error {
                    tokens := t :: ts
                    tree := tree
                    errors := errors
                    stack := rest } arm_idx "Expected pattern in match arm"
      | some pattern_type =>
        let (pattern_idx, tree) :=
          add_node tree (create_terminal_node pattern_type t)
        let tree := add_child tree arm_idx pattern_idx
        let cfg : Cfg := { tokens := ts, tree := tree, errors := errors, stack := rest }
        if curType ts ≠ .COLON then
          new_error cfg arm_idx "Expected ':' after pattern"
        else
          -- after pushing the arm frames the loop exits through its `break`,
          -- and the check after the loop consumes an immediate `'}'`
          { cfg with
            tokens := if curType (adv ts) = .RBRACE then adv (adv ts)
              else adv ts
            stack :=
              { state := .PARSE_STATEMENT, parent := arm_idx, curr := -1 } ::
              { state := .PARSE_MATCH_STMT_2, parent := match_idx,
                curr := match_idx } :: rest }

/-- The `PARSE_MATCH_STMT` step-2 case. -/
def step_match_stmt_2 (f : Frame) (rest : List Frame) (cfg : Cfg) : Cfg :=
  ms2_loop f.curr rest cfg.tokens cfg.tree cfg.errors

/-- One iteration of the main parsing loop: pop a frame and dispatch on its
state; `none` when the stack is empty and `parse` returns. -/
def parse_step (cfg : Cfg) : Option Cfg :=
  match cfg.stack with
  | [] => none
  | f :: rest =>
    some (match f.state with
      | .PARSE => step_parse f rest cfg
      | .PARSE_STATEMENT => step_statement f rest cfg
      | .PARSE_FUNCTION_DECL => step_function_decl f rest cfg
      | .PARSE_VAR_DECL => step_var_decl f rest cfg
      | .PARSE_PARAM_LIST => step_param_list f rest cfg
      | .PARSE_BLOCK => step_block f rest cfg
      | .PARSE_EXPRESSION => step_expression f rest cfg
      | .PARSE_CALL_ARGS => step_call_args f rest cfg
      | .PARSE_MATCH_EXPR_0 => step_match_expr_0 f rest cfg
      | .PARSE_MATCH_EXPR_1 => step_match_expr_1 f rest cfg
      | .PARSE_MATCH_STMT_0 => step_match_stmt_0 f rest cfg
      | .PARSE_MATCH_STMT_1 => step_match_stmt_1 f rest cfg
      | .PARSE_MATCH_STMT_2 => step_match_stmt_2 f rest cfg)

/-- The initial configuration of `parse`: the root `PROGRAM` node and one
`PARSE` frame. -/
def parse_init (ts : List Token) : Cfg :=
  let (root_idx, tree) :=
    add_node create_parse_tree (create_nonterminal_node .NODE_PROGRAM)
  let tree := { tree with root := root_idx }
  { tokens := ts, tree := tree, errors := [],
    stack := [{ state := .PARSE, parent := root_idx, curr := root_idx }] }

/-- Run the parsing loop for at most `gas` iterations, returning the final
configuration when the stack empties. -/
def parse_run : Nat → Cfg → Option Cfg
  | 0, _ => none
  | gas + 1, cfg =>
    match parse_step cfg with
    | none => some cfg
    | some cfg' => parse_run gas cfg'

/-- `parse`, with a gas bound ample for the concrete runs in this file
(the termination theorem shows some finite gas always suffices). -/
def parse (ts : List Token) : Option Cfg :=
  parse_run (ts.length * 8 + 64) (parse_init ts)

/-! ## AST (`ast.h`, `ast.c`) and the AST builder (`ast_builder.c`) -/

/-- AST node kinds (`ASTNodeType` in `ast.h`). -/
inductive ASTNodeType where
  | AST_PROGRAM | AST_FUNCTION_DECL | AST_PARAM_LIST | AST_PARAM | AST_BLOCK
  | AST_VAR_DECL | AST_MATCH_STMT
  | AST_CALL_EXPR | AST_ARG_LIST | AST_MATCH_EXPR | AST_MATCH_ARM
  | AST_AND_EXPR | AST_OR_EXPR | AST_PLUS_EXPR | AST_PIPE_EXPR
  | AST_NOT_EXPR | AST_NEGATE_EXPR
  | AST_IDENTIFIER
  | AST_STRING_LITERAL | AST_NUMBER_LITERAL | AST_BOOLEAN_LITERAL
  | AST_MATCH_WILDCARD
  deriving DecidableEq, Repr

/-- `struct ASTNode`. -/
structure ASTNode where
  type : ASTNodeType
  token : Token
  first_child : Int
  next_sibling : Int
  parent : Int
  deriving DecidableEq, Repr

/-- `struct AST`. -/
structure ASTT where
  nodes : List ASTNode
  root : Int
  deriving DecidableEq, Repr

def create_ast : ASTT := { nodes := [], root := -1 }

/-- `create_ast_nonterminal` (`memset 0` zeroes the token: kind 0 is
`TOKEN_EOF`, text `NULL`). -/
def create_ast_nonterminal (type : ASTNodeType) : ASTNode :=
  { type := type,
    token := { type := .EOF, text := none, line := 0, column := 0 },
    first_child := -1, next_sibling := -1, parent := -1 }

/-- `create_ast_terminal`. -/
def create_ast_terminal (type : ASTNodeType) (token : Token) : ASTNode :=
  { create_ast_nonterminal type with token := token }

/-- `get_ast_node`: `NULL` for a negative or out-of-range index. -/
def get_ast_node (ast : ASTT) (index : Int) : Option ASTNode :=
  if index < 0 then none else ast.nodes.get? index.toNat

def set_ast_node (ast : ASTT) (index : Int) (node : ASTNode) : ASTT :=
  if index < 0 then ast
  else { ast with nodes := ast.nodes.set index.toNat node }

/-- `add_ast_node`. -/
def add_ast_node (ast : ASTT) (node : ASTNode) : Int × ASTT :=
  (ast.nodes.length, { ast with nodes := ast.nodes ++ [node] })

/-- The sibling walk of `add_ast_child`. -/
def add_ast_child_go (child_idx : Int) : Nat → ASTT → Int → ASTT
  | 0, ast, _ => ast
  | gas + 1, ast, current_idx =>
    match get_ast_node ast current_idx with
    | none => ast
    | some current =>
      if current.next_sibling ≠ -1 then
        add_ast_child_go child_idx gas ast current.next_sibling
      else
        set_ast_node ast current_idx { current with next_sibling := child_idx }

/-- `add_ast_child`. -/
def add_ast_child (ast : ASTT) (parent_idx child_idx : Int) : ASTT :=
  match get_ast_node ast parent_idx, get_ast_node ast child_idx with
  | some _, some child =>
    let ast := set_ast_node ast child_idx { child with parent := parent_idx }
    match get_ast_node ast parent_idx with
    | none => ast
    | some parent' =>
      if parent'.first_child = -1 then
        set_ast_node ast parent_idx { parent' with first_child := child_idx }
      else
        add_ast_child_go child_idx (ast.nodes.length + 1) ast parent'.first_child
  | _, _ => ast

/-- `map_node_type`: the partial parse-kind → AST-kind map.  The `default:`
case of the C switch returns `-1` (here `none`); its comment says only the
formatting nodes (comments, newlines) are unmapped, but the cases above it
also omit all four match-related kinds. -/
def map_node_type (parse_type : ParseNodeType) : Option ASTNodeType :=
  match parse_type with
  | .NODE_PROGRAM => some .AST_PROGRAM
  | .NODE_FUNCTION_DECL => some .AST_FUNCTION_DECL
  | .NODE_VAR_DECL => some .AST_VAR_DECL
  | .NODE_PARAM_LIST => some .AST_PARAM_LIST
  | .NODE_PARAM => some .AST_PARAM
  | .NODE_BLOCK => some .AST_BLOCK
  | .NODE_CALL_EXPR => some .AST_CALL_EXPR
  | .NODE_ARG_LIST => some .AST_ARG_LIST
  | .NODE_AND_EXPR => some .AST_AND_EXPR
  | .NODE_OR_EXPR => some .AST_OR_EXPR
  | .NODE_PLUS_EXPR => some .AST_PLUS_EXPR
  | .NODE_PIPE_EXPR => some .AST_PIPE_EXPR
  | .NODE_NOT_EXPR => some .AST_NOT_EXPR
  | .NODE_NEGATE_EXPR => some .AST_NEGATE_EXPR
  | .NODE_IDENTIFIER => some .AST_IDENTIFIER
  | .NODE_STRING_LITERAL => some .AST_STRING_LITERAL
  | .NODE_BOOLEAN_LITERAL => some .AST_BOOLEAN_LITERAL
  | _ => none

/-- `should_include_node`. -/
def should_include_node (type : ParseNodeType) : Bool :=
  type ≠ .NODE_COMMENT && type ≠ .NODE_NEWLINE

/-- Collect a node's child indices by the first-child/next-sibling walk
(the parse tree is read-only during AST building, so collecting up front
is the same iteration the C performs). -/
def collect_children_go : Nat → PTree → Int → List Int
  | 0, _, _ => []
  | gas + 1, tree, child_idx =>
    if child_idx = -1 then []
    else
      match get_node tree child_idx with
      | none => []
      | some child => child_idx :: collect_children_go gas tree child.next_sibling

def collect_children (tree : PTree) (idx : Int) : List Int :=
  match get_node tree idx with
  | none => []
  | some node => collect_children_go (tree.nodes.length + 1) tree node.first_child

/-- `convert_node`: recursively convert a parse node and its children,
skipping trivia and unmapped kinds (`-1` = `none` results are dropped
silently).  The fuel bounds the recursion depth; `nodes.length + 1` always
suffices for the acyclic trees the parser builds. -/
def convert_node : Nat → PTree → ASTT → Int → Int × ASTT
  | 0, _, ast, _ => (-1, ast)
  | fuel + 1, tree, ast, parse_node_idx =>
    if parse_node_idx < 0 then (-1, ast)
    else
      match get_node tree parse_node_idx with
      | none => (-1, ast)
      | some parse_node =>
        if ¬should_include_node parse_node.type then (-1, ast)
        else
          match map_node_type parse_node.type with
          | none => (-1, ast)
          | some ast_type =>
            let ast_node :=
              if parse_node.type = .NODE_IDENTIFIER ∨
                  parse_node.type = .NODE_STRING_LITERAL ∨
                  parse_node.type = .NODE_BOOLEAN_LITERAL then
                create_ast_terminal ast_type parse_node.token
              else
                create_ast_nonterminal ast_type
            let (ast_node_idx, ast) := add_ast_node ast ast_node
            let ast := (collect_children tree parse_node_idx).foldl
              (fun ast child_idx =>
                let (ast_child_idx, ast) := convert_node fuel tree ast child_idx
                if ast_child_idx ≠ -1 then
                  add_ast_child ast ast_node_idx ast_child_idx
                else ast)
              ast
            (ast_node_idx, ast)

/-- `build_ast_from_parse_tree`. -/
def build_ast_from_parse_tree (tree : PTree) : ASTT :=
  let (root_idx, ast) :=
    convert_node (tree.nodes.length + 1) tree create_ast tree.root
  { ast with root := root_idx }

/-! ## Interpreter (`interpreter.c`)

Interned `String *` values are modelled by their byte content; two
interned handles are equal exactly when their contents are (the store
theorems below), so the C pointer comparisons become content
comparisons.  Output to `stdout` is accumulated in `out`; each
`fprintf(stderr, "Error: …")` is recorded in `errs` (without the
`"Error: "` framing and trailing newline). -/

/-- A runtime value (`ValueType` plus the `Variable` payload union). -/
inductive Value where
  | str (s : Str)
  | bool (b : Bool)
  deriving DecidableEq, Repr

/-- `struct Variable`. -/
structure Variable where
  name : Option Str
  value : Value
  deriving DecidableEq, Repr

/-- The interpreter's mutable context: the variable array and the two
output streams. -/
structure IState where
  vars : List Variable
  out : Str
  errs : List String
  deriving DecidableEq, Repr

/-- The escape-expanding loop of `print_string`.  The C iterates an index
`i` over `s = data + 1` bounded by `len = length - 2`; here the list is
consumed structurally, `rem` playing the role of `len - i`, so the loop
condition `i < len` is `rem > 0` and the lookahead guard `i + 1 < len` is
`rem ≥ 2`.  (The list always extends at least one byte past `rem` — the
closing quote — so `s[i+1]` exists whenever the guard holds.) -/
def print_string_go : Str → Int → Str
  | [], _ => []
  | c :: [], rem =>
    if rem ≤ 0 then []
    else if c = '\\' ∧ rem ≥ 2 then []
    else [c]
  | c :: d :: tl, rem =>
    if rem ≤ 0 then []
    else if c = '\\' ∧ rem ≥ 2 then
      if d = 'n' then '\n' :: print_string_go tl (rem - 2)
      else if d = 't' then '\t' :: print_string_go tl (rem - 2)
      else if d = 'r' then '\r' :: print_string_go tl (rem - 2)
      else if d = '\\' then '\\' :: print_string_go tl (rem - 2)
      else if d = '"' then '"' :: print_string_go tl (rem - 2)
      else c :: print_string_go (d :: tl) (rem - 1)
    else c :: print_string_go (d :: tl) (rem - 1)

/-- `print_string`: skip the first and last bytes of the stored lexeme
(the quote bytes), expanding `\n`, `\t`, `\r`, `\\`, `\"`; any other byte
after a backslash falls to the `default:` case, which prints `s[i]` — the
backslash itself — and does not skip the following byte. -/
def print_string (s : Str) : Str :=
  print_string_go (s.drop 1) ((s.length : Int) - 2)

/-- `print_boolean`. -/
def print_boolean (b : Bool) : Str :=
  if b then str "true" else str "false"

/-- `store_string_variable` / `store_boolean_variable`: linear scan, update
in place on a name match, else append.  (Name matches are pointer
comparisons on interned handles in the C, hence content comparisons
here.) -/
def store_variable : List Variable → Option Str → Value → List Variable
  | [], name, v => [{ name := name, value := v }]
  | var :: rest, name, v =>
    if var.name = name then { var with value := v } :: rest
    else var :: store_variable rest name v

/-- `lookup_variable`. -/
def lookup_variable : List Variable → Option Str → Option Variable
  | [], _ => none
  | var :: rest, name =>
    if var.name = name then some var else lookup_variable rest name

/-- The quoted rendering of an identifier in the `Undefined variable '…'`
diagnostic (the C `fwrite`s the name bytes between the quotes). -/
def undefined_variable_msg (name : Option Str) : String :=
  "Undefined variable '" ++ String.mk (name.getD []) ++ "'"

/-- Collect an AST node's child indices (read-only sibling walk). -/
def ast_children_go : Nat → ASTT → Int → List Int
  | 0, _, _ => []
  | gas + 1, ast, child_idx =>
    if child_idx = -1 then []
    else
      match get_ast_node ast child_idx with
      | none => []
      | some child => child_idx :: ast_children_go gas ast child.next_sibling

def ast_children (ast : ASTT) (idx : Int) : List Int :=
  match get_ast_node ast idx with
  | none => []
  | some node => ast_children_go (ast.nodes.length + 1) ast node.first_child

/-- The arm-iteration loop of the `AST_MATCH_EXPR` case of
`evaluate_expression`: walk the arms in declaration order and return the
index of the first matching arm's body expression (the C evaluates that
body in place; pattern checking has no side effects, so splitting the
search from the evaluation is observably identical).  `gas` bounds the
sibling walk. -/
def find_matching_arm (ast : ASTT) (subject : Value) :
    Nat → Int → Except String Int
  | 0, _ => .error "No matching pattern in match expression"
  | gas + 1, arm_idx =>
    if arm_idx = -1 then .error "No matching pattern in match expression"
    else
      match get_ast_node ast arm_idx with
      | none => .error "Invalid MATCH arm"
      | some arm =>
        if arm.type ≠ .AST_MATCH_ARM then .error "Invalid MATCH arm"
        else if arm.first_child = -1 then .error "MATCH arm missing pattern"
        else
          match get_ast_node ast arm.first_child with
          | none => .error "Invalid pattern node"
          | some pattern =>
            let is_match : Bool :=
              if pattern.type = .AST_MATCH_WILDCARD then true
              else
                match pattern.type, subject with
                | .AST_BOOLEAN_LITERAL, .bool subject_bool =>
                  (pattern.token.type = .TRUE) = subject_bool
                | .AST_STRING_LITERAL, .str subject_str =>
                  match pattern.token.text with
                  | none => false
                  | some pattern_str => pattern_str = subject_str
                | _, _ => false
            if is_match then
              if pattern.next_sibling = -1 then
                .error "MATCH arm missing expression"
              else
                .ok pattern.next_sibling
            else
              find_matching_arm ast subject gas arm.next_sibling

/-- `evaluate_expression`: value-returning evaluation;
`Except.error msg` models printing `Error: msg` to stderr and returning a
non-zero status.  The fuel bounds the recursion depth (the C recurses on
the node structure); `nodes.length + 1` suffices for ASTs built from
parser output. -/
def evaluate_expression (ast : ASTT) (vars : List Variable) :
    Nat → Int → Except String Value
  | 0, _ => .error "Unsupported expression type in evaluation"
  | fuel + 1, node_idx =>
    match get_ast_node ast node_idx with
    | none => .error "Invalid expression node"
    | some node =>
      match node.type with
      | .AST_BOOLEAN_LITERAL => .ok (.bool (node.token.type = .TRUE))
      | .AST_STRING_LITERAL => .ok (.str (node.token.text.getD []))
      | .AST_IDENTIFIER =>
        match lookup_variable vars node.token.text with
        | none => .error (undefined_variable_msg node.token.text)
        | some var => .ok var.value
      | .AST_NOT_EXPR =>
        if node.first_child = -1 then .error "NOT expression missing operand"
        else
          match evaluate_expression ast vars fuel node.first_child with
          | .error e => .error e
          | .ok (.str _) => .error "NOT operator requires boolean operand"
          | .ok (.bool b) => .ok (.bool (!b))
      | .AST_AND_EXPR =>
        if node.first_child = -1 then .error "AND expression missing operands"
        else
          match get_ast_node ast node.first_child with
          | none => .error "AND expression missing right operand"
          | some left_node =>
            if left_node.next_sibling = -1 then
              .error "AND expression missing right operand"
            else
              match evaluate_expression ast vars fuel node.first_child with
              | .error e => .error e
              | .ok (.str _) => .error "AND operator requires boolean operands"
              | .ok (.bool left_bool) =>
                match evaluate_expression ast vars fuel left_node.next_sibling with
                | .error e => .error e
                | .ok (.str _) => .error "AND operator requires boolean operands"
                | .ok (.bool right_bool) => .ok (.bool (left_bool && right_bool))
      | .AST_OR_EXPR =>
        if node.first_child = -1 then .error "OR expression missing operands"
        else
          match get_ast_node ast node.first_child with
          | none => .error "OR expression missing right operand"
          | some left_node =>
            if left_node.next_sibling = -1 then
              .error "OR expression missing right operand"
            else
              match evaluate_expression ast vars fuel node.first_child with
              | .error e => .error e
              | .ok (.str _) => .error "OR operator requires boolean operands"
              | .ok (.bool left_bool) =>
                match evaluate_expression ast vars fuel left_node.next_sibling with
                | .error e => .error e
                | .ok (.str _) => .error "OR operator requires boolean operands"
                | .ok (.bool right_bool) => .ok (.bool (left_bool || right_bool))
      | .AST_MATCH_EXPR =>
        if node.first_child = -1 then .error "MATCH expression missing subject"
        else
          match evaluate_expression ast vars fuel node.first_child with
          | .error e => .error e
          | .ok subject =>
            match get_ast_node ast node.first_child with
            | none => .error "Invalid subject node"
            | some subject_node =>
              match find_matching_arm ast subject
                  (ast.nodes.length + 1) subject_node.next_sibling with
              | .error e => .error e
              | .ok body_idx => evaluate_expression ast vars fuel body_idx
      | _ => .error "Unsupported expression type in evaluation"

/-- The evaluation fuel the rest of the interpreter passes to
`evaluate_expression` (enough for any AST of this size; the C recursion
depth is bounded by the acyclic node structure). -/
def eval_fuel (ast : ASTT) : Nat := ast.nodes.length + 1

/-- `execute_var_decl`. -/
def execute_var_decl (ast : ASTT) (st : IState) (node_idx : Int) :
    IState × Int :=
  let fail (msg : String) : IState × Int :=
    ({ st with errs := st.errs ++ [msg] }, 1)
  match get_ast_node ast node_idx with
  | none => fail "Invalid variable declaration"
  | some node =>
    if node.type ≠ .AST_VAR_DECL then fail "Invalid variable declaration"
    else
      match get_ast_node ast node.first_child with
      | none => fail "Invalid variable name"
      | some var_name =>
        if var_name.type ≠ .AST_IDENTIFIER then fail "Invalid variable name"
        else if var_name.next_sibling = -1 then fail "Missing variable value"
        else
          match evaluate_expression ast st.vars (eval_fuel ast)
              var_name.next_sibling with
          | .error e => fail e
          | .ok v =>
            ({ st with vars := store_variable st.vars var_name.token.text v }, 0)

/-- `execute_call_expr`: only the built-in `print` exists; it reads only
the *first* child of the argument list. -/
def execute_call_expr (ast : ASTT) (st : IState) (node_idx : Int) :
    IState × Int :=
  let fail (msg : String) : IState × Int :=
    ({ st with errs := st.errs ++ [msg] }, 1)
  match get_ast_node ast node_idx with
  | none => fail "Invalid call expression"
  | some node =>
    if node.type ≠ .AST_CALL_EXPR then fail "Invalid call expression"
    else
      match get_ast_node ast node.first_child with
      | none => fail "Invalid function name in call"
      | some func_name =>
        if func_name.type ≠ .AST_IDENTIFIER then
          fail "Invalid function name in call"
        else
          let arg_list_idx := func_name.next_sibling
          match get_ast_node ast arg_list_idx with
          | none => fail "Invalid argument list"
          | some arg_list =>
            if arg_list.type ≠ .AST_ARG_LIST then fail "Invalid argument list"
            else if func_name.token.text = some (str "print") then
              let arg_idx := arg_list.first_child
              if arg_idx = -1 then fail "print() requires an argument"
              else
                match get_ast_node ast arg_idx with
                | none => fail "Invalid argument"
                | some arg =>
                  if arg.type = .AST_STRING_LITERAL then
                    ({ st with
                       out := st.out ++ print_string (arg.token.text.getD []) }, 0)
                  else if arg.type = .AST_BOOLEAN_LITERAL then
                    ({ st with
                       out := st.out ++ print_boolean (arg.token.type = .TRUE) }, 0)
                  else if arg.type = .AST_IDENTIFIER then
                    match lookup_variable st.vars arg.token.text with
                    | none => fail (undefined_variable_msg arg.token.text)
                    | some var =>
                      match var.value with
                      | .str s => ({ st with out := st.out ++ print_string s }, 0)
                      | .bool b =>
                        ({ st with out := st.out ++ print_boolean b }, 0)
                  else
                    fail "print() requires a string or boolean argument"
            else
              fail ("Unknown function '" ++
                String.mk ((func_name.token.text).getD []) ++ "'")

/-- The statement loop of `execute_block`: `VAR_DECL` and `CALL_EXPR`
children execute in order, anything else is ignored; the first non-zero
status stops execution. -/
def exec_stmts (ast : ASTT) : List Int → IState → IState × Int
  | [], st => (st, 0)
  | c :: cs, st =>
    match get_ast_node ast c with
    | none => (st, 0)
    | some child =>
      if child.type = .AST_VAR_DECL then
        let (st, r) := execute_var_decl ast st c
        if r ≠ 0 then (st, r) else exec_stmts ast cs st
      else if child.type = .AST_CALL_EXPR then
        let (st, r) := execute_call_expr ast st c
        if r ≠ 0 then (st, r) else exec_stmts ast cs st
      else exec_stmts ast cs st

/-- `execute_block`. -/
def execute_block (ast : ASTT) (st : IState) (node_idx : Int) :
    IState × Int :=
  match get_ast_node ast node_idx with
  | none => ({ st with errs := st.errs ++ ["Invalid block"] }, 1)
  | some node =>
    if node.type ≠ .AST_BLOCK then
      ({ st with errs := st.errs ++ ["Invalid block"] }, 1)
    else exec_stmts ast (ast_children ast node_idx) st

/-- The child walk of `execute_function_decl`: the block is the *last*
`AST_BLOCK` child. -/
def find_block (ast : ASTT) (children : List Int) : Int :=
  children.foldl
    (fun block_idx c =>
      match get_ast_node ast c with
      | some child => if child.type = .AST_BLOCK then c else block_idx
      | none => block_idx)
    (-1)

/-- `execute_function_decl`. -/
def execute_function_decl (ast : ASTT) (st : IState) (node_idx : Int) :
    IState × Int :=
  match get_ast_node ast node_idx with
  | none => ({ st with errs := st.errs ++ ["Invalid function declaration"] }, 1)
  | some node =>
    if node.type ≠ .AST_FUNCTION_DECL then
      ({ st with errs := st.errs ++ ["Invalid function declaration"] }, 1)
    else
      let block_idx := find_block ast (ast_children ast node_idx)
      if block_idx = -1 then
        ({ st with errs := st.errs ++ ["Function has no body"] }, 1)
      else execute_block ast st block_idx

/-- The main-function search of `execute_program`: the first top-level
`AST_FUNCTION_DECL` whose identifier text is `main`. -/
def find_main (ast : ASTT) : List Int → Int
  | [] => -1
  | c :: cs =>
    match get_ast_node ast c with
    | none => -1
    | some child =>
      if child.type = .AST_FUNCTION_DECL then
        match get_ast_node ast child.first_child with
        | some func_name =>
          if func_name.type = .AST_IDENTIFIER ∧
              func_name.token.text = some (str "main") then c
          else find_main ast cs
        | none => find_main ast cs
      else find_main ast cs

/-- `execute_program`. -/
def execute_program (ast : ASTT) (st : IState) (node_idx : Int) :
    IState × Int :=
  match get_ast_node ast node_idx with
  | none => ({ st with errs := st.errs ++ ["Invalid program node"] }, 1)
  | some node =>
    if node.type ≠ .AST_PROGRAM then
      ({ st with errs := st.errs ++ ["Invalid program node"] }, 1)
    else
      let main_func_idx := find_main ast (ast_children ast node_idx)
      if main_func_idx = -1 then
        ({ st with errs := st.errs ++ ["No main function found"] }, 1)
      else execute_function_decl ast st main_func_idx

/-- `interpret`. -/
def interpret (ast : ASTT) (st : IState) : IState × Int :=
  execute_program ast st ast.root

/-! ## Formatter (`formatter.c`)

Output is modelled as the full byte sequence written; `page_used` in the
conditions of `format_terminal_node` is the length of the output so far,
which coincides with the C page buffer for outputs below `PAGE_SIZE`
(4096 bytes; all concrete runs here are far below, and the buffer only
flushes when full). -/

inductive FmtState where
  | FORMAT_NODE | FORMAT_CHILDREN | FORMAT_TERMINAL | FORMAT_COMMENT
  | FORMAT_LITERAL_TEXT | FORMAT_INDENT_DEC
  deriving DecidableEq, Repr

/-- `struct FormatterStackFrame`. -/
structure FFrame where
  state : FmtState
  node_idx : Int
  child_idx : Int
  text : Option Str
  deriving DecidableEq, Repr

/-- `struct Formatter` (tree, stack, output and layout state). -/
structure Fmt where
  tree : PTree
  stack : List FFrame
  out : Str
  current_indent : Int
  current_column : Nat
  at_line_start : Bool
  deriving DecidableEq, Repr

def fmt_push_frame (state : FmtState) (node_idx child_idx : Int) :
    FFrame :=
  { state := state, node_idx := node_idx, child_idx := child_idx,
    text := none }

def fmt_literal (text : Str) : FFrame :=
  { state := .FORMAT_LITERAL_TEXT, node_idx := -1, child_idx := -1,
    text := some text }

def fmt_node (node_idx : Int) : FFrame :=
  { state := .FORMAT_NODE, node_idx := node_idx, child_idx := -1,
    text := none }

def fmt_children (node_idx child_idx : Int) : FFrame :=
  { state := .FORMAT_CHILDREN, node_idx := node_idx, child_idx := child_idx,
    text := none }

def fmt_indent_dec : FFrame :=
  { state := .FORMAT_INDENT_DEC, node_idx := -1, child_idx := -1,
    text := none }

/-- `append_char`. -/
def append_char (f : Fmt) (c : Char) : Fmt :=
  if c = '\n' then
    { f with out := f.out ++ [c], current_column := 0, at_line_start := true }
  else
    { f with
      out := f.out ++ [c]
      current_column := f.current_column + 1
      at_line_start := false }

/-- `append_string`. -/
def append_string (f : Fmt) (s : Str) : Fmt :=
  s.foldl append_char f

def format_newline (f : Fmt) : Fmt := append_char f '\n'

/-- `format_indentation`: one tab per indent level, only at line start. -/
def format_indentation (f : Fmt) : Fmt :=
  if !f.at_line_start then f
  else
    let f := (List.range f.current_indent.toNat).foldl
      (fun f _ => append_char f '\t') f
    { f with at_line_start := false }

/-- `token_type_to_string` (formatter version): the canonical lexeme of a
token kind with no stored text, `""` otherwise. -/
def token_type_to_string (type : TokType) : Str :=
  match type with
  | .MODULE => str "module"
  | .IMPORT => str "import"
  | .EXPORT => str "export"
  | .RETURN => str "return"
  | .MATCH => str "match"
  | .TYPE => str "type"
  | .TRY => str "try"
  | .AND => str "and"
  | .OR => str "or"
  | .TRUE => str "true"
  | .FALSE => str "false"
  | .THIS => str "this"
  | .PARTIAL_KW => str "partial"
  | .COLON => str ":"
  | .SEMICOLON => str ";"
  | .COMMA => str ","
  | .DOT => str "."
  | .PIPE => str "|"
  | .UNDERSCORE => str "_"
  | .STAR => str "*"
  | .LPAREN => str "("
  | .RPAREN => str ")"
  | .LBRACE => str "\x7b"
  | .RBRACE => str "\x7d"
  | .LBRACKET => str "["
  | .RBRACKET => str "]"
  | .LANGLE => str "<"
  | .RANGLE => str ">"
  | .PLUS => str "+"
  | .MINUS => str "-"
  | _ => []

/-- `format_terminal_node`. -/
def format_terminal_node (f : Fmt) (node : ParseNode) : Fmt :=
  let f := (List.range node.leading_newlines).foldl
    (fun f _ => format_newline f) f
  let f :=
    if f.at_line_start && f.out.length > 0 && f.current_indent > 0 then
      format_indentation f
    else f
  let token_text :=
    match node.token.text with
    | some t => t
    | none => token_type_to_string node.token.type
  if token_text = [] then f
  else append_string f token_text

/-- One iteration of the main formatting loop. -/
def format_step (f : Fmt) : Option Fmt :=
  match f.stack with
  | [] => none
  | frame :: rest =>
    let f := { f with stack := rest }
    some (match frame.state with
    | .FORMAT_NODE =>
      match get_node f.tree frame.node_idx with
      | none => f
      | some node =>
        match node.type with
        | .NODE_IDENTIFIER =>
          { f with stack := fmt_push_frame .FORMAT_TERMINAL frame.node_idx (-1) :: rest }
        | .NODE_STRING_LITERAL =>
          { f with stack := fmt_push_frame .FORMAT_TERMINAL frame.node_idx (-1) :: rest }
        | .NODE_COMMENT =>
          { f with stack := fmt_push_frame .FORMAT_COMMENT frame.node_idx (-1) :: rest }
        | .NODE_NEWLINE => format_newline f
        | .NODE_FUNCTION_DECL =>
          match get_node f.tree node.first_child with
          | none => f
          | some first_child =>
            let second_child := get_node f.tree first_child.next_sibling
            let third_child :=
              match second_child with
              | some s => get_node f.tree s.next_sibling
              | none => none
            let tail0 := fmt_literal (str "\n") :: rest
            let tail1 :=
              match second_child, third_child with
              | some s, some _ => fmt_node s.next_sibling :: tail0
              | _, _ => tail0
            let tail2 :=
              match second_child with
              | some _ => fmt_node first_child.next_sibling :: tail1
              | none => tail1
            { f with stack :=
                fmt_node node.first_child :: fmt_literal (str ": ") :: tail2 }
        | .NODE_BLOCK =>
          { f with
            current_indent := f.current_indent + 1
            stack :=
              fmt_literal (str " \x7b") ::
              fmt_children frame.node_idx (-1) ::
              fmt_indent_dec ::
              fmt_literal (str "\x7d") :: rest }
        | .NODE_PARAM_LIST =>
          { f with stack :=
              fmt_literal (str "(") ::
              fmt_children frame.node_idx (-1) ::
              fmt_literal (str ")") :: rest }
        | .NODE_CALL_EXPR =>
          match get_node f.tree node.first_child with
          | none => f
          | some first_child =>
            let tail0 := fmt_literal (str ")") :: rest
            let tail1 :=
              if first_child.next_sibling ≠ -1 then
                fmt_node first_child.next_sibling :: tail0
              else tail0
            { f with stack :=
                fmt_node node.first_child :: fmt_literal (str "(") :: tail1 }
        | _ =>
          -- NODE_PROGRAM, NODE_ARG_LIST, NODE_PARAM and every kind without
          -- special handling format their children inline
          { f with stack := fmt_children frame.node_idx (-1) :: rest }
    | .FORMAT_CHILDREN =>
      match get_node f.tree frame.node_idx with
      | none => f
      | some node =>
        let child_idx :=
          if frame.child_idx = -1 then node.first_child
          else
            match get_node f.tree frame.child_idx with
            | some child => child.next_sibling
            | none => -1
        if child_idx ≠ -1 then
          { f with stack :=
              fmt_node child_idx ::
              fmt_children frame.node_idx child_idx :: rest }
        else f
    | .FORMAT_TERMINAL =>
      match get_node f.tree frame.node_idx with
      | none => f
      | some node => format_terminal_node f node
    | .FORMAT_COMMENT =>
      let f := if !f.at_line_start then append_char f ' ' else f
      match get_node f.tree frame.node_idx with
      | none => f
      | some node => format_terminal_node f node
    | .FORMAT_LITERAL_TEXT =>
      match frame.text with
      | some text => append_string f text
      | none => f
    | .FORMAT_INDENT_DEC => { f with current_indent := f.current_indent - 1 })

/-- Run the formatting loop for at most `gas` iterations. -/
def format_run : Nat → Fmt → Option Str
  | 0, _ => none
  | gas + 1, f =>
    match format_step f with
    | none => some f.out
    | some f' => format_run gas f'

/-- `format_tree` (via `format_to_stdout` / `format_to_file`): the whole
output of formatting a parse tree, with a gas bound ample for the concrete
trees in this file. -/
def format_parse_tree (tree : PTree) : Option Str :=
  let f : Fmt :=
    { tree := tree, stack := [], out := [], current_indent := 0,
      current_column := 0, at_line_start := true }
  let f := if tree.root ≥ 0 then { f with stack := [fmt_node tree.root] } else f
  format_run (tree.nodes.length * 20 + 64) f

/-! ## The driver pipelines (`main.c`) -/

/-- The observable outcome of `run <file>` (`command_run`): bytes written
to stdout, the syntax-error list, the runtime diagnostics, and the exit
code. -/
structure RunResult where
  stdout : Str
  parse_errors : List PError
  runtime_errors : List String
  exit : Int
  deriving DecidableEq, Repr

/-- `command_run`: lex, parse, stop with exit 1 on syntax errors, else
build the AST and interpret.  `none` only when a model gas bound is hit
(never for the concrete programs below). -/
def command_run (source : Str) : Option RunResult :=
  match tokenize source with
  | none => none
  | some ts =>
    match parse ts with
    | none => none
    | some cfg =>
      if cfg.errors ≠ [] then
        some { stdout := [], parse_errors := cfg.errors,
               runtime_errors := [], exit := 1 }
      else
        let ast := build_ast_from_parse_tree cfg.tree
        let (st, code) := interpret ast { vars := [], out := [], errs := [] }
        some { stdout := st.out, parse_errors := [],
               runtime_errors := st.errs, exit := code }

/-- `command_format` (stdout variant): lex, parse, and pretty-print when
there are no syntax errors. -/
def command_format (source : Str) : Option Str :=
  match tokenize source with
  | none => none
  | some ts =>
    match parse ts with
    | none => none
    | some cfg =>
      if cfg.errors ≠ [] then none
      else format_parse_tree cfg.tree

/-! ## Specification-side definitions used to settle the claims -/

/-- The escape expansion of the *amended* print contract: expand `\n`,
`\t`, `\r`, `\\`, `\"`; for any other byte `X` after a backslash the
backslash is emitted and `X` is then processed as an ordinary byte (so
both bytes appear).  Stated over the already-stripped middle of the
lexeme. -/
def expand_escapes : Str → Str
  | [] => []
  | c :: [] => [c]
  | c :: d :: tl =>
    if c = '\\' then
      if d = 'n' then '\n' :: expand_escapes tl
      else if d = 't' then '\t' :: expand_escapes tl
      else if d = 'r' then '\r' :: expand_escapes tl
      else if d = '\\' then '\\' :: expand_escapes tl
      else if d = '"' then '"' :: expand_escapes tl
      else c :: expand_escapes (d :: tl)
    else c :: expand_escapes (d :: tl)

/-- The middle of a stored string lexeme: everything between the first and
last byte (`len - 2` bytes starting after the opening quote). -/
def lexeme_middle (s : Str) : Str :=
  (s.drop 1).take (((s.length : Int) - 2)).toNat

/-- Modelled from the claim's words for C6: an `AND_EXPR`/`OR_EXPR`
"evaluates both child operands *before* checking their types, requires
both operands to be boolean (reporting a type-mismatch error and
returning non-zero otherwise), and on success yields the conjunction
resp. disjunction".  Sub-operands evaluate by the code's own evaluator;
only the top-level order of evaluation versus type checking follows the
claim.  Defined only for and/or nodes. -/
def evaluate_and_or_claim (ast : ASTT) (vars : List Variable) (fuel : Nat)
    (node_idx : Int) : Except String Value :=
  match get_ast_node ast node_idx with
  | none => .error "Invalid expression node"
  | some node =>
    if node.type = .AST_AND_EXPR ∨ node.type = .AST_OR_EXPR then
      let msg :=
        if node.type = .AST_AND_EXPR then "AND operator requires boolean operands"
        else "OR operator requires boolean operands"
      if node.first_child = -1 then .error "missing operands"
      else
        match get_ast_node ast node.first_child with
        | none => .error "missing right operand"
        | some left_node =>
          if left_node.next_sibling = -1 then .error "missing right operand"
          else
            -- the claim's order: both operands are evaluated first,
            -- types are checked afterwards
            match evaluate_expression ast vars fuel node.first_child,
                evaluate_expression ast vars fuel left_node.next_sibling with
            | .error e, _ => .error e
            | .ok _, .error e => .error e
            | .ok lv, .ok rv =>
              match lv, rv with
              | .bool b, .bool c =>
                .ok (.bool (if node.type = .AST_AND_EXPR then b && c else b || c))
              | _, _ => .error msg
    else .error "not an and/or node"

/-- The scenario-S3 source the claim C1 quotes. -/
def s3_source : Str :=
  str "main : () \x7b\n    x : true\n    y : match x \x7b true : \"T\" false : \"F\" \x7d\n    print(y)\n\x7d"

/-- A variant of S3 with one arm per line, which the parser accepts: it
isolates the AST builder's treatment of match nodes (claim C2). -/
def ml_match_source : Str :=
  str "main : () \x7b\n    x : true\n    y : match x \x7b\n    true : \"T\"\n    false : \"F\"\n    \x7d\n    print(y)\n\x7d"

/-- The one-function source used to refute formatter idempotence (C3). -/
def c3_source : Str := str "main : () \x7b\n\x7d"

/-- A concrete AST for the C6 counterexample: `"s" and nope`, with `nope`
unbound.  (Node 0 = `AST_AND_EXPR`, node 1 = string literal `"s"`,
node 2 = identifier `nope`.) -/
def c6_ast : ASTT :=
  { nodes :=
      [ { type := .AST_AND_EXPR,
          token := { type := .EOF, text := none, line := 0, column := 0 },
          first_child := 1, next_sibling := -1, parent := -1 },
        { type := .AST_STRING_LITERAL,
          token := { type := .STRING, text := some (str "\"s\""),
                     line := 1, column := 1 },
          first_child := -1, next_sibling := 2, parent := 0 },
        { type := .AST_IDENTIFIER,
          token := { type := .IDENTIFIER, text := some (str "nope"),
                     line := 1, column := 7 },
          first_child := -1, next_sibling := -1, parent := 0 } ],
    root := 0 }

/-- A concrete AST for the C10 witness:
`print("a", nope)` — a call whose argument list has two children, the
second an unbound identifier.  (0 = `CALL_EXPR`, 1 = `print`,
2 = `ARG_LIST`, 3 = `"a"`, 4 = `nope`.) -/
def c10_ast : ASTT :=
  { nodes :=
      [ { type := .AST_CALL_EXPR,
          token := { type := .EOF, text := none, line := 0, column := 0 },
          first_child := 1, next_sibling := -1, parent := -1 },
        { type := .AST_IDENTIFIER,
          token := { type := .IDENTIFIER, text := some (str "print"),
                     line := 1, column := 1 },
          first_child := -1, next_sibling := 2, parent := 0 },
        { type := .AST_ARG_LIST,
          token := { type := .EOF, text := none, line := 0, column := 0 },
          first_child := 3, next_sibling := -1, parent := 0 },
        { type := .AST_STRING_LITERAL,
          token := { type := .STRING, text := some (str "\"a\""),
                     line := 1, column := 7 },
          first_child := -1, next_sibling := 4, parent := 2 },
        { type := .AST_IDENTIFIER,
          token := { type := .IDENTIFIER, text := some (str "nope"),
                     line := 1, column := 12 },
          first_child := -1, next_sibling := -1, parent := 2 } ],
    root := 0 }

/-! ## The termination measure for `parse` (claim C7)

Every step of the machine either consumes at least one token, or leaves
the stream unchanged and strictly decreases `mu2`: the total frame weight
plus three times a head-frame potential that is switched off when the
current token is a `NEWLINE` or `EOF` (at those tokens all non-consuming
steps already shed frame weight). -/

/-- Frame weights: chosen so that every non-consuming step at a `NEWLINE`
or `EOF` current token strictly decreases the stack's total weight
(e.g. `PARSE_FUNCTION_DECL` pops weight 5 and pushes
`PARSE_BLOCK` + `PARSE_PARAM_LIST` of weight `2 + 2`). -/
def frame_w : PState → Nat
  | .PARSE => 1
  | .PARSE_VAR_DECL => 3
  | .PARSE_FUNCTION_DECL => 5
  | _ => 2

/-- Head-frame potential: at any current token other than
`NEWLINE`/`EOF`, every non-consuming step replaces the head frame by one
of strictly smaller potential (`PARSE`@identifier pushes
`PARSE_STATEMENT` on top, `PARSE_FUNCTION_DECL` pushes
`PARSE_PARAM_LIST`, `PARSE_VAR_DECL` pushes `PARSE_EXPRESSION`,
`PARSE_BLOCK` pushes `PARSE_STATEMENT`/`PARSE_MATCH_STMT`,
`PARSE_EXPRESSION`@`match` pushes `PARSE_MATCH_EXPR`). -/
def frame_nu : PState → Nat
  | .PARSE => 2
  | .PARSE_FUNCTION_DECL => 2
  | .PARSE_VAR_DECL => 2
  | .PARSE_BLOCK => 2
  | .PARSE_STATEMENT => 1
  | .PARSE_PARAM_LIST => 1
  | .PARSE_EXPRESSION => 1
  | _ => 0

def stack_w (stack : List Frame) : Nat :=
  (stack.map (fun f => frame_w f.state)).sum

/-- The head potential, switched off at `NEWLINE`/`EOF`. -/
def nu_hat (cfg : Cfg) : Nat :=
  match cfg.stack with
  | [] => 0
  | f :: _ =>
    if curType cfg.tokens = .NEWLINE ∨ curType cfg.tokens = .EOF then 0
    else frame_nu f.state

/-- The secondary measure: strictly decreases on every step that does not
consume a token. -/
def mu2 (cfg : Cfg) : Nat := stack_w cfg.stack + 3 * nu_hat cfg

/-- The combined termination potential: eight units per unread token plus
the stack measure.  Every iteration of the parsing loop strictly decreases
it, so `parse`'s gas of `8 * tokens + 64` always suffices. -/
def phi (cfg : Cfg) : Nat := 8 * cfg.tokens.length + mu2 cfg

/-- Decidable equality of evaluation results (for the concrete
computations in the theorems below). -/
instance : DecidableEq (Except String Value) := fun a b =>
  match a, b with
  | .ok v, .ok w => decidable_of_iff (v = w) (by simp)
  | .error e, .error e' => decidable_of_iff (e = e') (by simp)
  | .ok _, .error _ => isFalse (by simp)
  | .error _, .ok _ => isFalse (by simp)

/-- The interning contract of claim C9, for one store and one byte
sequence: interning twice returns the same handle and the same store;
after the first intern, any further interleaving of intern calls leaves
the handle of `x` unchanged; and two handles into the store name equal
contents exactly when they are the same handle. -/
def InternSpec (store : StringStore) (x : Str) : Prop :=
  (store_from_buffer (store_from_buffer store x).2 x).1 =
      (store_from_buffer store x).1 ∧
  (store_from_buffer (store_from_buffer store x).2 x).2 =
      (store_from_buffer store x).2 ∧
  (∀ store', StoreReach (store_from_buffer store x).2 store' →
    store_from_buffer store' x = ((store_from_buffer store x).1, store')) ∧
  (∀ h₁ h₂ c₁ c₂, store.get? h₁ = some c₁ → store.get? h₂ = some c₂ →
    (h₁ = h₂ ↔ c₁ = c₂))

/-- A concrete lexer state for the C4 witness: one backtick of remaining
input, inside a (single-backtick) interpolated string, outside any
embedded expression. -/
def c4_state : LexState :=
  { source := str "`", position := 0, line := 1, column := 1,
    in_string_interpolation := 1, is_multiline_string := false,
    brace_depth := 0 }

/-! # Theorems settling the claims -/

/-- **C1** (code bug).  The claim says running the S3 program prints `T`
and exits 0.  In fact the match-arm expression sub-parser swallows the
next arm's `false` pattern as a second operand (its terminator set has no
`COLON`), so `build_expr_tree_from_postfix` is left with two nodes and the
parser records `Invalid expression` plus two cascade errors; `run` then
refuses to execute: it writes nothing to stdout and exits 1. -/
theorem C1_s3_run_prints_nothing_and_exits_1 :
    (command_run s3_source).map
        (fun r => (r.stdout, r.exit, r.parse_errors.map PError.message)) =
      some ([], 1,
        ["Invalid expression", "Expected function declaration",
         "Expected '\x7d' at end of block"]) := by decide

/-- **C2** (code bug).  The claim (and the `default:` comment in
`map_node_type`, the `AST_MATCH_*` kinds in `ast.h`, and the interpreter's
`AST_MATCH_EXPR` evaluator) says only `COMMENT` and `NEWLINE` parse kinds
are excluded from the AST; in fact `map_node_type` also drops all four
match kinds, so `convert_node` silently discards every match subtree: for
the multi-line S3 variant (accepted by the parser with no errors, its
parse tree containing a `NODE_MATCH_EXPR`), the built AST contains no
match node at all and `y` loses its value. -/
theorem C2_match_kinds_dropped_from_ast :
    map_node_type .NODE_MATCH_EXPR = none ∧
    map_node_type .NODE_MATCH_STMT = none ∧
    map_node_type .NODE_MATCH_ARM = none ∧
    map_node_type .NODE_MATCH_WILDCARD = none ∧
    should_include_node .NODE_MATCH_EXPR = true ∧
    ((tokenize ml_match_source).bind parse).map
        (fun cfg =>
          (cfg.errors,
           cfg.tree.nodes.any (fun n => n.type = .NODE_MATCH_EXPR),
           (build_ast_from_parse_tree cfg.tree).nodes.any
             (fun n => n.type = .AST_MATCH_EXPR))) =
      some ([], true, false) ∧
    (command_run ml_match_source).map
        (fun r => (r.stdout, r.runtime_errors, r.exit)) =
      some ([], ["Missing variable value"], 1) := by decide

/-- **C3** (code bug).  The claim says `format` is idempotent over any
`parse`-accepted input.  In fact `FUNCTION_DECL` formatting always appends
its own `"\n"` while a trailing newline in the source is preserved as a
`NODE_NEWLINE` child of `PROGRAM`, so every round adds one newline:
formatting `"main : () {\n}"` yields `"main: () {\n}\n"`, and formatting
that (also accepted with an empty error list — `command_format` returns
`none` otherwise) yields `"main: () {\n}\n\n"`, a different byte
sequence. -/
theorem C3_format_not_idempotent :
    command_format c3_source = some (str "main: () \x7b\n\x7d\n") ∧
    command_format (str "main: () \x7b\n\x7d\n") = some (str "main: () \x7b\n\x7d\n\n") ∧
    str "main: () \x7b\n\x7d\n\n" ≠ str "main: () \x7b\n\x7d\n" := by decide

/-- **C8** (code bug).  The claim says `next_token` is total and returns
an `UNKNOWN` token on any unrecognized byte.  In fact the trailing
single-character `switch` has no `default` case, so on `@` (and `#`, `$`,
an `=` not opening `====`, …) the C function returns an *uninitialized*
token — the `return new_token(TOKEN_UNKNOWN, lexer)` after the `switch` is
unreachable; and on an unterminated `====` documentation block the
scanning loops of `read_doc` never exit at end of input. -/
theorem C8_next_token_ub_and_divergence :
    next_token (create_lexer (str "@")) = .ub ∧
    next_token (create_lexer (str "#")) = .ub ∧
    next_token (create_lexer (str "= x")) = .ub ∧
    next_token (create_lexer (str "====")) = .diverge := by decide

/-- **C5, counterexample**.  The claim says that for an unknown escape
`\X` only the byte `X` is emitted.  On the lexeme `"\q"` the code prints
`\q`: the `default:` case of `print_string` prints `s[i]` — the backslash
— and does not skip `q`. -/
theorem C5_unknown_escape_keeps_backslash :
    print_string (str "\"\\q\"") = str "\\q" ∧ str "\\q" ≠ str "q" := by
  decide

/-- **C6, counterexample**.  The claim says an `AND_EXPR` evaluates both
child operands before checking their types.  On `"s" and nope` (left a
string literal, right an unbound identifier) the code checks the left
operand's type first and reports the type mismatch, whereas the claimed
order would fail evaluating `nope` first: the two disagree. -/
theorem C6_left_type_checked_before_right_evaluated :
    evaluate_expression c6_ast [] 4 0 =
        .error "AND operator requires boolean operands" ∧
    evaluate_and_or_claim c6_ast [] 4 0 =
        .error "Undefined variable 'nope'" ∧
    evaluate_expression c6_ast [] 4 0 ≠ evaluate_and_or_claim c6_ast [] 4 0 := by
  decide

/-- A successful `get_ast_node` implies the index is not `-1`. -/
theorem get_ast_node_some_ne_neg_one {ast : ASTT} {i : Int} {n : ASTNode}
    (h : get_ast_node ast i = some n) : i ≠ -1 := by
  intro hi
  rw [hi] at h
  simp [get_ast_node] at h

/-- **C6, amended**.  On an `AND_EXPR`/`OR_EXPR` node with both operands
present, the interpreter evaluates the *left* operand first and checks its
type *before* touching the right operand: a left error propagates, a
non-boolean left yields the type-mismatch error outright, and only for a
boolean left is the right operand evaluated — unconditionally, whatever
the left boolean's value (no value short-circuit) — after which a right
error propagates, a non-boolean right yields the type-mismatch error, and
two booleans combine by `&&` resp. `||`. -/
theorem C6_and_or_left_first (ast : ASTT) (vars : List Variable)
    (fuel : Nat) (node_idx : Int) (node left_node : ASTNode)
    (h1 : get_ast_node ast node_idx = some node)
    (h2 : node.type = .AST_AND_EXPR ∨ node.type = .AST_OR_EXPR)
    (h3 : get_ast_node ast node.first_child = some left_node)
    (h4 : left_node.next_sibling ≠ -1) :
    (∀ e, evaluate_expression ast vars fuel node.first_child = .error e →
        evaluate_expression ast vars (fuel + 1) node_idx = .error e) ∧
    (∀ s, evaluate_expression ast vars fuel node.first_child = .ok (.str s) →
        evaluate_expression ast vars (fuel + 1) node_idx =
          .error (if node.type = .AST_AND_EXPR
            then "AND operator requires boolean operands"
            else "OR operator requires boolean operands")) ∧
    (∀ b, evaluate_expression ast vars fuel node.first_child = .ok (.bool b) →
        evaluate_expression ast vars (fuel + 1) node_idx =
          match evaluate_expression ast vars fuel left_node.next_sibling with
          | .error e => .error e
          | .ok (.str _) =>
            .error (if node.type = .AST_AND_EXPR
              then "AND operator requires boolean operands"
              else "OR operator requires boolean operands")
          | .ok (.bool c) =>
            .ok (.bool (if node.type = .AST_AND_EXPR then b && c
              else b || c))) := by
  have hfc : node.first_child ≠ -1 :=
    get_ast_node_some_ne_neg_one h3
  rcases h2 with h2 | h2 <;>
    refine ⟨fun e he => ?_, fun s hs => ?_, fun b hb => ?_⟩ <;>
    simp only [evaluate_expression, h1, h2, h3, if_neg hfc, if_neg h4]
  · rw [he]
  · rw [hs]; simp
  · rw [hb]; simp
  · rw [he]
  · rw [hs]; simp
  · rw [hb]; simp

/-- Witness for the amended C6 theorem: instantiated on the concrete AST
`"s" and nope`, whose left operand is a string literal, it reports the
AND type-mismatch error. -/
theorem C6_and_or_left_first_witness :
    evaluate_expression c6_ast [] (3 + 1) 0 =
      .error "AND operator requires boolean operands" := by
  have h := (C6_and_or_left_first c6_ast [] 3 0
      { type := .AST_AND_EXPR,
        token := { type := .EOF, text := none, line := 0, column := 0 },
        first_child := 1, next_sibling := -1, parent := -1 }
      { type := .AST_STRING_LITERAL,
        token := { type := .STRING, text := some (str "\"s\""),
                   line := 1, column := 1 },
        first_child := -1, next_sibling := 2, parent := 0 }
      (by decide) (Or.inl (by decide)) (by decide) (by decide)).2.1
      (str "\"s\"") (by decide)
  simpa using h


/-- **C10** (confirmed).  A `print` call reads only the *first* child of
its argument list: whatever the first argument's `next_sibling` chain
holds (here: any further arguments), the call prints the first argument
and returns 0 — the remaining arguments are never inspected, cause no
error, and do not affect the output. -/
theorem C10_print_ignores_extra_args (ast : ASTT) (st : IState)
    (node_idx : Int) (node func_name arg_list arg : ASTNode)
    (h1 : get_ast_node ast node_idx = some node)
    (h2 : node.type = .AST_CALL_EXPR)
    (h3 : get_ast_node ast node.first_child = some func_name)
    (h4 : func_name.type = .AST_IDENTIFIER)
    (h5 : func_name.token.text = some (str "print"))
    (h6 : get_ast_node ast func_name.next_sibling = some arg_list)
    (h7 : arg_list.type = .AST_ARG_LIST)
    (h8 : get_ast_node ast arg_list.first_child = some arg)
    (_h9 : arg.next_sibling ≠ -1)
    (h10 : arg.type = .AST_STRING_LITERAL) :
    execute_call_expr ast st node_idx =
      ({ st with out := st.out ++ print_string (arg.token.text.getD []) }, 0) := by
  have harg : arg_list.first_child ≠ -1 := get_ast_node_some_ne_neg_one h8
  simp only [execute_call_expr, h1, h3, h6, h8]
  simp [h2, h4, h5, h7, h10, harg]

/-- Witness for C10: `print("a", nope)` with `nope` unbound prints `a`
and succeeds — the second argument is never evaluated. -/
theorem C10_witness :
    execute_call_expr c10_ast { vars := [], out := [], errs := [] } 0 =
      ({ vars := [], out := str "a", errs := [] }, 0) := by
  exact C10_print_ignores_extra_args c10_ast _ 0 _ _ _ _ rfl rfl rfl rfl
    rfl rfl rfl rfl (by decide) rfl

/-- `expand_escapes` walks over an ordinary (non-backslash) byte. -/
theorem expand_escapes_cons_of_ne {c : Char} (hc : c ≠ '\\') (X : Str) :
    expand_escapes (c :: X) = c :: expand_escapes X := by
  match X with
  | [] => simp [expand_escapes]
  | e :: tl => simp [expand_escapes, hc]

/-- `expand_escapes` emits the backslash of an unknown escape and then
processes the following byte ordinarily. -/
theorem expand_escapes_backslash_unknown {d : Char}
    (hd : d ≠ 'n' ∧ d ≠ 't' ∧ d ≠ 'r' ∧ d ≠ '\\' ∧ d ≠ '"') (X : Str) :
    expand_escapes ('\\' :: d :: X) = '\\' :: expand_escapes (d :: X) := by
  obtain ⟨h1, h2, h3, h4, h5⟩ := hd
  simp [expand_escapes, h1, h2, h3, h4, h5]

/-- `print_string_go` emits nothing once `rem` is exhausted. -/
theorem ps_go_nonpos (l : Str) (rem : Int) (h : rem ≤ 0) :
    print_string_go l rem = [] := by
  match l with
  | [] => simp [print_string_go]
  | [c] => simp [print_string_go, h]
  | c :: d :: tl => simp [print_string_go, h]

/-- The loop of `print_string` agrees with the spec-side escape expansion
on the first `rem` bytes, whenever `rem` does not exceed the list (always
the case for the call in `print_string`). -/
theorem ps_go_eq_expand (N : Nat) :
    ∀ (l : Str) (rem : Int), l.length ≤ N → rem ≤ (l.length : Int) →
      print_string_go l rem = expand_escapes (l.take rem.toNat) := by
  induction N with
  | zero =>
    intro l rem hN hrem
    have hl : l = [] := List.length_eq_zero.mp (Nat.le_zero.mp hN)
    subst hl
    simp [print_string_go, expand_escapes]
  | succ N ih =>
    intro l rem hN hrem
    match l with
    | [] => simp [print_string_go, expand_escapes]
    | [c] =>
      by_cases h0 : rem ≤ 0
      · have : rem.toNat = 0 := by omega
        simp [print_string_go, h0, this, expand_escapes]
      · have h1 : rem = 1 := by
          simp only [List.length_singleton, Nat.cast_one] at hrem; omega
        have hg : ¬(c = '\\' ∧ rem ≥ 2) := by rintro ⟨-, h2⟩; omega
        have ht : rem.toNat = 1 := by omega
        simp [print_string_go, h0, hg, ht, expand_escapes]
    | c :: d :: tl =>
      have hlen : tl.length ≤ N := by
        simp only [List.length_cons] at hN; omega
      have hlen' : (d :: tl).length ≤ N := by
        simp only [List.length_cons] at hN ⊢; omega
      by_cases h0 : rem ≤ 0
      · have : rem.toNat = 0 := by omega
        simp [print_string_go, h0, this, expand_escapes]
      · have hrem2 : rem ≤ (tl.length : Int) + 2 := by
          simp only [List.length_cons] at hrem; push_cast at hrem ⊢; omega
        by_cases hg : c = '\\' ∧ rem ≥ 2
        · obtain ⟨hc, h2⟩ := hg
          have htk : rem.toNat = (rem - 2).toNat + 1 + 1 := by omega
          rw [htk, List.take_succ_cons, List.take_succ_cons]
          subst hc
          have hih : print_string_go tl (rem - 2) =
              expand_escapes (List.take (rem - 2).toNat tl) :=
            ih tl (rem - 2) hlen (by omega)
          simp only [print_string_go]
          rw [if_neg h0, if_pos (show True ∧ rem ≥ 2 from ⟨trivial, h2⟩)]
          by_cases hd1 : d = 'n'
          · subst hd1; rw [if_pos rfl, hih]; simp [expand_escapes]
          · rw [if_neg hd1]
            by_cases hd2 : d = 't'
            · subst hd2; rw [if_pos rfl, hih]; simp [expand_escapes]
            · rw [if_neg hd2]
              by_cases hd3 : d = 'r'
              · subst hd3; rw [if_pos rfl, hih]; simp [expand_escapes]
              · rw [if_neg hd3]
                by_cases hd4 : d = '\\'
                · subst hd4; rw [if_pos rfl, hih]; simp [expand_escapes]
                · rw [if_neg hd4]
                  by_cases hd5 : d = '"'
                  · subst hd5; rw [if_pos rfl, hih]; simp [expand_escapes]
                  · -- unknown escape: the backslash survives
                    rw [if_neg hd5]
                    rw [expand_escapes_backslash_unknown
                      ⟨hd1, hd2, hd3, hd4, hd5⟩]
                    rw [ih (d :: tl) (rem - 1) hlen' (by
                      simp only [List.length_cons]; push_cast; omega)]
                    have he : (rem - 1).toNat = (rem - 2).toNat + 1 := by omega
                    rw [he, List.take_succ_cons]
        · -- no escape is taken: either `c` is not a backslash or `rem = 1`
          have h1 : 1 ≤ rem := by omega
          have htk : rem.toNat = (rem - 1).toNat + 1 := by omega
          rw [htk, List.take_succ_cons]
          simp only [print_string_go]
          rw [if_neg h0, if_neg hg]
          by_cases hc : c = '\\'
          · have h2 : rem = 1 := by
              rcases not_and_or.mp hg with h | h
              · exact absurd hc h
              · omega
            rw [ps_go_nonpos (d :: tl) (rem - 1) (by omega)]
            have hz : (rem - 1).toNat = 0 := by omega
            rw [hz]
            simp [expand_escapes]
          · rw [expand_escapes_cons_of_ne hc]
            rw [ih (d :: tl) (rem - 1) hlen' (by
              simp only [List.length_cons]; push_cast; omega)]

/-- `find_string` misses exactly when the content is absent. -/
theorem find_string_eq_none_iff (s : StringStore) (x : Str) :
    find_string s x = none ↔ x ∉ s := by
  induction s with
  | nil => simp [find_string]
  | cons y rest ih =>
    by_cases h : (y == x) = true
    · have hy : y = x := by simpa using h
      simp [find_string, strings_equal, h, hy]
    · have hy : ¬y = x := by simpa using h
      simp only [find_string, strings_equal, if_neg h, Option.map_eq_none',
        ih, List.mem_cons, not_or]
      constructor
      · intro hx; exact ⟨fun he => hy he.symm, hx⟩
      · intro hx; exact hx.2

/-- A `find_string` hit returns the handle of a record with the sought
content. -/
theorem find_string_get (s : StringStore) (x : Str) :
    ∀ h, find_string s x = some h → s.get? h = some x := by
  induction s with
  | nil => simp [find_string]
  | cons y rest ih =>
    intro h
    simp only [find_string, strings_equal]
    by_cases hy : (y == x) = true
    · rw [if_pos hy]
      intro he
      have h0 : h = 0 := by simpa using he.symm
      have : y = x := by simpa using hy
      simp [h0, this]
    · rw [if_neg hy]
      intro he
      cases hf : find_string rest x with
      | none => rw [hf] at he; simp at he
      | some k =>
        rw [hf] at he
        have hk : h = k + 1 := by simpa using he.symm
        subst hk
        simpa using ih k hf

/-- A `find_string` hit is stable under appending more records (the walk
returns the first match). -/
theorem find_string_append (s t : StringStore) (x : Str) :
    ∀ h, find_string s x = some h → find_string (s ++ t) x = some h := by
  induction s with
  | nil => intro h hf; simp [find_string] at hf
  | cons y rest ih =>
    intro h hf
    rw [List.cons_append]
    simp only [find_string, strings_equal] at hf ⊢
    by_cases hy : (y == x) = true
    · rw [if_pos hy] at hf ⊢; exact hf
    · rw [if_neg hy] at hf ⊢
      cases hrec : find_string rest x with
      | none => rw [hrec] at hf; simp at hf
      | some k =>
        rw [hrec] at hf
        rw [ih k hrec]
        exact hf

/-- When the content is absent, appending it makes it found at the old
length. -/
theorem find_string_append_self (s : StringStore) (x : Str)
    (h : find_string s x = none) :
    find_string (s ++ [x]) x = some s.length := by
  induction s with
  | nil => simp [find_string, strings_equal]
  | cons y rest ih =>
    rw [List.cons_append]
    simp only [find_string, strings_equal] at h ⊢
    by_cases hy : (y == x) = true
    · rw [if_pos hy] at h; simp at h
    · rw [if_neg hy] at h ⊢
      have hrec : find_string rest x = none := by
        cases hrec : find_string rest x with
        | none => rfl
        | some k => rw [hrec] at h; simp at h
      rw [ih hrec]
      simp [List.length_cons]

/-- Every store built by interning from the empty store has pairwise
distinct contents. -/
theorem store_reach_nodup (s : StringStore)
    (h : StoreReach string_storage_init s) : s.Nodup := by
  induction h with
  | refl => simp [string_storage_init]
  | step t x _ ih =>
    unfold store_from_buffer
    cases hf : find_string t x with
    | some k => simpa using ih
    | none =>
      simp only [create_string]
      refine List.Nodup.append ih (List.nodup_singleton x) ?_
      intro a ha hb
      have hax : a = x := by simpa using hb
      exact (find_string_eq_none_iff t x).mp hf (hax ▸ ha)

/-- When `find_string` hits, `store_from_buffer` returns that handle and
leaves the store unchanged. -/
theorem store_from_buffer_of_find (s : StringStore) (x : Str) (h : Nat)
    (hf : find_string s x = some h) : store_from_buffer s x = (h, s) := by
  unfold store_from_buffer
  rw [hf]

/-- **C9** (confirmed).  For every store reachable from the empty store by
any interleaving of intern operations: interning the same bytes twice
returns the same handle and the same store; the handle stays the same
under any further interleaving of interns; and handles compare equal
exactly when they name the same byte content. -/
theorem C9_interning_idempotent (store : StringStore) (x : Str)
    (hreach : StoreReach string_storage_init store) : InternSpec store x := by
  have hfind : find_string (store_from_buffer store x).2 x =
      some (store_from_buffer store x).1 := by
    unfold store_from_buffer
    cases hf : find_string store x with
    | some h => simpa using hf
    | none =>
      simp only [create_string]
      exact find_string_append_self store x hf
  refine ⟨?_, ?_, ?_, ?_⟩
  · rw [store_from_buffer_of_find _ _ _ hfind]
  · rw [store_from_buffer_of_find _ _ _ hfind]
  · intro store' hreach'
    have hfind' : find_string store' x = some (store_from_buffer store x).1 := by
      induction hreach' with
      | refl => exact hfind
      | step t y _ ih =>
        unfold store_from_buffer
        cases hf : find_string t y with
        | some k => simpa using ih
        | none =>
          simp only [create_string]
          exact find_string_append t [y] x _ ih
    rw [store_from_buffer_of_find _ _ _ hfind']
  · intro h₁ h₂ c₁ c₂ hc₁ hc₂
    have hnd := store_reach_nodup store hreach
    constructor
    · rintro rfl
      rw [hc₁] at hc₂
      exact Option.some.inj hc₂
    · rintro rfl
      have hlt : h₁ < store.length := (List.get?_eq_some.mp hc₁).1
      exact List.get?_inj hlt hnd (hc₁.trans hc₂.symm)

/-- Witness for C9: a store holding one interned string, and a fresh byte
sequence. -/
theorem C9_witness :
    InternSpec (store_from_buffer string_storage_init (str "alpha")).2
      (str "test") :=
  C9_interning_idempotent _ _
    (.step string_storage_init string_storage_init (str "alpha") (.refl _))

/-- `count_run_go` never returns less than its accumulator. -/
theorem count_run_go_ge_acc (target : Char) (src : Str) (pos : Nat) :
    ∀ gas acc, acc ≤ count_run_go target src pos gas acc := by
  intro gas
  induction gas with
  | zero => intro acc; simp [count_run_go]
  | succ g ih =>
    intro acc
    simp only [count_run_go]
    split
    · exact le_trans (Nat.le_succ acc) (ih (acc + 1))
    · exact le_rfl

/-- If the `n` bytes from `pos` are all `target`, the counted run is at
least `n` (given enough gas). -/
theorem count_run_go_ge (target : Char) (src : Str) (pos n : Nat)
    (h : ∀ i, i < n → charAt src (pos + i) = target) :
    ∀ gas acc, acc ≤ n → n ≤ acc + gas →
      n ≤ count_run_go target src pos gas acc := by
  intro gas
  induction gas with
  | zero => intro acc h1 h2; simpa [count_run_go] using by omega
  | succ g ih =>
    intro acc h1 h2
    rcases Nat.eq_or_lt_of_le h1 with he | hlt
    · exact he ▸ count_run_go_ge_acc target src pos (g + 1) acc
    · simp only [count_run_go]
      rw [if_pos (h acc hlt)]
      exact ih (acc + 1) hlt (by omega)

/-- The run of `target` bytes starting at `pos` is at least `n` when the
`n` bytes from `pos` (all inside the buffer) are `target`. -/
theorem count_run_ge (target : Char) (src : Str) (pos n : Nat)
    (h : ∀ i, i < n → charAt src (pos + i) = target)
    (hlen : pos + n ≤ src.length) : n ≤ count_run target src pos := by
  unfold count_run
  exact count_run_go_ge target src pos n h _ 0 (Nat.zero_le n) (by omega)

/-- A run whose first byte is not `target` has length 0. -/
theorem count_run_first_ne (target : Char) (src : Str) (pos : Nat)
    (h : charAt src pos ≠ target) : count_run target src pos = 0 := by
  unfold count_run
  cases hgas : src.length + 1 - pos with
  | zero => simp [count_run_go]
  | succ g =>
    simp only [count_run_go]
    rw [if_neg (by simpa using h)]

/-- A whitespace lookahead whose first byte is neither space nor tab
counts 0. -/
theorem count_ws_run_first_ne (src : Str) (pos : Nat)
    (h1 : charAt src pos ≠ ' ') (h2 : charAt src pos ≠ '\t') :
    count_ws_run src pos = 0 := by
  unfold count_ws_run
  simp only [count_ws_run_go]
  rw [if_neg (by simpa using ⟨h1, h2⟩)]

/-- `has_closing_at` holds when the `n` bytes from `pos` are backticks. -/
theorem has_closing_at_true (src : Str) (pos n : Nat)
    (h : ∀ i, i < n → charAt src (pos + i) = '`') :
    has_closing_at src pos n = true := by
  simp only [has_closing_at, List.all_eq_true]
  intro i hi
  simpa using h i (List.mem_range.mp hi)

/-- **C4** (confirmed).  From any lexer state in string-content mode
(`in_string_interpolation = n > 0`, `brace_depth = 0`) whose remaining
input begins with a run of at least `n` backticks, `next_token` emits a
`STRING_I_END` token whose text is the decimal representation of `n`, and
afterwards `in_string_interpolation = 0` and `is_multiline_string = 0`. -/
theorem C4_closing_backticks_emit_string_i_end (st : LexState) (n : Nat)
    (hn : st.in_string_interpolation = n) (hpos : 0 < n)
    (hbrace : st.brace_depth = 0)
    (hlen : st.position + n ≤ st.source.length)
    (hrun : ∀ i, i < n → charAt st.source (st.position + i) = '`') :
    ∃ t st', next_token st = .ok t st' ∧
      t.type = .STRING_I_END ∧ t.text = some (Nat.repr n).data ∧
      st'.in_string_interpolation = 0 ∧ st'.is_multiline_string = false := by
  have hfirst : charAt st.source st.position = '`' := by
    have := hrun 0 hpos
    simpa using this
  have hopen : count_open_braces st = 0 := by
    unfold count_open_braces
    exact count_run_first_ne '{' _ _ (by rw [hfirst]; decide)
  have hticks : n ≤ count_backticks st := by
    unfold count_backticks
    exact count_run_ge '`' _ _ n hrun hlen
  have hend : read_string_interpolation_content st =
      .ok (new_token_from_val .STRING_I_END
            { advanceN n st with
              in_string_interpolation := 0, is_multiline_string := false } n)
          { advanceN n st with
            in_string_interpolation := 0, is_multiline_string := false } := by
    have hws : count_ws_run st.source st.position = 0 :=
      count_ws_run_first_ne _ _ (by rw [hfirst]; decide)
        (by rw [hfirst]; decide)
    have hcl : has_closing_at st.source st.position n = true :=
      has_closing_at_true st.source st.position n hrun
    unfold read_string_interpolation_content
    by_cases hm : (st.is_multiline_string && decide (st.column = 1)) = true
    · simp only [hn, hm, if_true, hws, Nat.add_zero, hcl]
      simp
    · have hm' : (st.is_multiline_string && decide (st.column = 1)) = false := by
        revert hm; cases (st.is_multiline_string && decide (st.column = 1)) <;>
          simp
      simp only [hn, hm', Bool.false_eq_true, if_false]
      rw [if_pos (show count_backticks st ≥ n from hticks)]
  refine ⟨new_token_from_val .STRING_I_END
      { advanceN n st with
        in_string_interpolation := 0, is_multiline_string := false } n,
    { advanceN n st with
      in_string_interpolation := 0, is_multiline_string := false },
    ?_, rfl, rfl, rfl, rfl⟩
  unfold next_token
  simp only [hn, hbrace]
  rw [if_pos hpos]
  rw [if_neg (show ¬(0 : Nat) > 0 by omega)]
  rw [if_neg (show ¬count_open_braces st ≥ n by rw [hopen]; omega)]
  rw [ite_self]
  exact hend

/-- Witness for C4: the concrete state `c4_state` (inside a one-backtick
string, at a closing backtick). -/
theorem C4_witness :
    ∃ t st', next_token c4_state = .ok t st' ∧
      t.type = .STRING_I_END ∧ t.text = some (Nat.repr 1).data ∧
      st'.in_string_interpolation = 0 ∧ st'.is_multiline_string = false :=
  C4_closing_backticks_emit_string_i_end c4_state 1 (by decide) (by decide)
    (by decide) (by decide) (by decide)

/-- **C5, amended** (corrected claim, proved).  `print` strips the first
and last bytes of the stored lexeme and expands `\n`, `\t`, `\r`, `\\`,
`\"`; for any other byte `X` following a backslash, the backslash is
emitted and `X` is then processed as an ordinary byte (both bytes appear):
`print_string` coincides with the spec-side `expand_escapes` of the
lexeme's middle. -/
theorem C5_print_string_expands_escapes (s : Str) :
    print_string s = expand_escapes (lexeme_middle s) := by
  unfold print_string lexeme_middle
  apply ps_go_eq_expand (s.drop 1).length _ _ le_rfl
  simp only [List.length_drop]
  omega

/-! ## Termination of the parser (claim C7)

Every iteration of the parsing loop strictly decreases `phi`, the
lexicographic measure `(remaining tokens, stack weight + head potential)`
collapsed into the single natural number `8 * tokens + mu2`. -/

theorem adv_length (ts : List Token) : (adv ts).length = ts.length - 1 := by
  simp [adv]

theorem curType_nil : curType ([] : List Token) = .EOF := rfl

theorem length_pos_of_curType {ts : List Token} (h : curType ts ≠ .EOF) :
    1 ≤ ts.length := by
  cases ts with
  | nil => exact absurd curType_nil h
  | cons t ts => simp

theorem skip_to_newline_cons_stop {t : Token} {ts : List Token}
    (h : t.type = .EOF ∨ t.type = .NEWLINE) :
    skip_to_newline (t :: ts) = t :: ts := by
  rcases h with h | h <;> simp [skip_to_newline, List.dropWhile_cons, h]

theorem skip_to_newline_cons_go {t : Token} {ts : List Token}
    (h : ¬(t.type = .EOF ∨ t.type = .NEWLINE)) :
    skip_to_newline (t :: ts) = skip_to_newline ts := by
  rcases not_or.mp h with ⟨ha, hb⟩
  simp [skip_to_newline, List.dropWhile_cons, ha, hb]

theorem skip_to_newline_length_le (ts : List Token) :
    (skip_to_newline ts).length ≤ ts.length := by
  induction ts with
  | nil => simp [skip_to_newline]
  | cons t ts ih =>
    by_cases h : t.type = .EOF ∨ t.type = .NEWLINE
    · rw [skip_to_newline_cons_stop h]
    · rw [skip_to_newline_cons_go h]
      exact Nat.le_succ_of_le ih

theorem skip_to_newline_head (ts : List Token) :
    curType (skip_to_newline ts) = .NEWLINE ∨
      curType (skip_to_newline ts) = .EOF := by
  induction ts with
  | nil => right; rfl
  | cons t ts ih =>
    by_cases h : t.type = .EOF ∨ t.type = .NEWLINE
    · rw [skip_to_newline_cons_stop h]
      rcases h with h | h
      · right; simpa [curType, cur] using h
      · left; simpa [curType, cur] using h
    · rw [skip_to_newline_cons_go h]
      exact ih

theorem skip_to_newline_length_lt {ts : List Token}
    (h1 : curType ts ≠ .NEWLINE) (h2 : curType ts ≠ .EOF) :
    (skip_to_newline ts).length + 1 ≤ ts.length := by
  cases ts with
  | nil => exact absurd curType_nil h2
  | cons t ts =>
    have ht : ¬(t.type = .EOF ∨ t.type = .NEWLINE) := by
      intro h; rcases h with h | h
      · exact h2 (by simpa [curType, cur] using h)
      · exact h1 (by simpa [curType, cur] using h)
    rw [skip_to_newline_cons_go ht]
    have := skip_to_newline_length_le ts
    simpa using Nat.succ_le_succ this

theorem frame_nu_le (s : PState) : frame_nu s ≤ 2 := by
  cases s <;> simp [frame_nu]

theorem nu_hat_le (cfg : Cfg) : nu_hat cfg ≤ 2 := by
  unfold nu_hat
  cases cfg.stack with
  | nil => exact Nat.zero_le _
  | cons f rest =>
    by_cases h : curType cfg.tokens = .NEWLINE ∨ curType cfg.tokens = .EOF
    · simp [h]
    · simp only [if_neg h]
      exact frame_nu_le f.state

theorem nu_hat_eq_zero {cfg : Cfg}
    (h : curType cfg.tokens = .NEWLINE ∨ curType cfg.tokens = .EOF) :
    nu_hat cfg = 0 := by
  unfold nu_hat
  cases cfg.stack with
  | nil => rfl
  | cons f rest =>
    dsimp only
    rw [if_pos h]

theorem stack_w_cons (f : Frame) (rest : List Frame) :
    stack_w (f :: rest) = frame_w f.state + stack_w rest := by
  simp [stack_w]

theorem phi_new_error (cfg : Cfg) (p : Int) (m : String) :
    phi (new_error cfg p m) =
      8 * (skip_to_newline cfg.tokens).length + (1 + stack_w cfg.stack) := by
  have hz : nu_hat (new_error cfg p m) = 0 :=
    nu_hat_eq_zero (by simpa [new_error] using skip_to_newline_head cfg.tokens)
  unfold phi mu2
  rw [hz]
  simp [new_error, stack_w_cons, frame_w]

theorem consume_trivia_length_le (p : Int) :
    ∀ (ts : List Token) (tree : PTree),
      (consume_trivia ts tree p).1.length ≤ ts.length := by
  intro ts
  induction ts with
  | nil => intro tree; simp [consume_trivia]
  | cons t ts ih =>
    intro tree
    by_cases hb : (t.type = .COMMENT || t.type = .NEWLINE) = true
    · simp only [consume_trivia]
      rw [if_pos hb]
      split <;> exact Nat.le_succ_of_le (ih _)
    · simp only [consume_trivia]
      rw [if_neg hb]

theorem consume_trivia_cases (p : Int) :
    ∀ (ts : List Token) (tree : PTree),
      (consume_trivia ts tree p).1 = ts ∨
        (consume_trivia ts tree p).1.length < ts.length := by
  intro ts
  induction ts with
  | nil => intro tree; left; simp [consume_trivia]
  | cons t ts ih =>
    intro tree
    by_cases hb : (t.type = .COMMENT || t.type = .NEWLINE) = true
    · right
      simp only [consume_trivia]
      rw [if_pos hb]
      split <;> exact Nat.lt_succ_of_le (consume_trivia_length_le p ts _)
    · left
      simp only [consume_trivia]
      rw [if_neg hb]

theorem consume_trivia_head (p : Int) :
    ∀ (ts : List Token) (tree : PTree),
      curType (consume_trivia ts tree p).1 ≠ .NEWLINE := by
  intro ts
  induction ts with
  | nil => intro tree; simp [consume_trivia, curType, cur, eofToken]
  | cons t ts ih =>
    intro tree
    by_cases hb : (t.type = .COMMENT || t.type = .NEWLINE) = true
    · simp only [consume_trivia]
      rw [if_pos hb]
      split <;> exact ih _
    · simp only [consume_trivia]
      rw [if_neg hb]
      have : ¬(t.type = .NEWLINE) := by
        intro h; exact hb (by simp [h])
      simpa [curType, cur] using this

theorem sy_go_length_le :
    ∀ (ts out ops : List Token),
      (shunting_yard_go ts out ops).2.length ≤ ts.length := by
  intro ts
  induction ts with
  | nil => intro out ops; simp [shunting_yard_go]
  | cons t ts ih =>
    intro out ops
    simp only [shunting_yard_go]
    split_ifs with h1 h2 h3
    · simp
    · exact Nat.le_succ_of_le (ih _ _)
    · exact Nat.le_succ_of_le (ih _ _)
    · simp

theorem sy_cases (ts : List Token) :
    (shunting_yard ts).2.length < ts.length ∨
      ((shunting_yard ts).2 = ts ∧ (shunting_yard ts).1 = []) := by
  unfold shunting_yard
  cases ts with
  | nil => right; simp [shunting_yard_go]
  | cons t ts =>
    simp only [shunting_yard_go]
    split_ifs with h1 h2 h3
    · right; simp
    · left; exact Nat.lt_succ_of_le (sy_go_length_le _ _ _)
    · left
      exact Nat.lt_succ_of_le (sy_go_length_le _ _ _)
    · right; simp

theorem build_expr_tree_nil (tree : PTree) (p : Int) :
    build_expr_tree tree [] p = (-1, tree) := by
  simp [build_expr_tree, build_expr_go]

theorem parse_step_none_iff (cfg : Cfg) :
    parse_step cfg = none ↔ cfg.stack = [] := by
  unfold parse_step
  cases cfg.stack <;> simp

theorem curType_cons (t : Token) (ts : List Token) :
    curType (t :: ts) = t.type := by
  simp [curType, cur]

theorem nu_hat_cons (ts : List Token) (tr : PTree) (e : List PError)
    (f : Frame) (s : List Frame) :
    nu_hat { tokens := ts, tree := tr, errors := e, stack := f :: s } =
      if curType ts = .NEWLINE ∨ curType ts = .EOF then 0
      else frame_nu f.state := rfl

/-- The argument loop of `PARSE_CALL_ARGS` ends in a configuration of
strictly smaller potential than the `PARSE_CALL_ARGS` configuration it was
entered from. -/
theorem args_loop_phi (a : Int) (rest : List Frame) :
    ∀ (ts : List Token) (tree : PTree) (errors : List PError),
      phi (args_loop a rest ts tree errors) <
        8 * ts.length + (2 + stack_w rest) := by
  intro ts
  induction ts with
  | nil =>
    intro tree errors
    simp only [args_loop]
    rw [phi_new_error]
    simp [skip_to_newline]
  | cons t ts ih =>
    intro tree errors
    simp only [args_loop]
    split_ifs with h1 h2 h3 hc h4 h5 h6 h7 h8
    · -- `RPAREN`: pop the loop, consume the paren
      have hn := nu_hat_le ⟨ts, tree, errors, rest⟩
      simp only [phi, mu2, List.length_cons]
      omega
    · -- `EOF`: report the missing paren, recover
      rw [phi_new_error]
      have hs := skip_to_newline_length_le (t :: ts)
      simp only [List.length_cons] at hs ⊢
      omega
    · -- comment trivia: preserved, loop on
      exact lt_of_lt_of_le (ih _ _)
        (by simp only [List.length_cons]; omega)
    · -- newline trivia: preserved, loop on
      exact lt_of_lt_of_le (ih _ _)
        (by simp only [List.length_cons]; omega)
    · -- comma: skipped, loop on
      exact lt_of_lt_of_le (ih _ _)
        (by simp only [List.length_cons]; omega)
    · -- string argument
      exact lt_of_lt_of_le (ih _ _)
        (by simp only [List.length_cons]; omega)
    · -- boolean argument
      exact lt_of_lt_of_le (ih _ _)
        (by simp only [List.length_cons]; omega)
    · -- identifier argument
      exact lt_of_lt_of_le (ih _ _)
        (by simp only [List.length_cons]; omega)
    · -- unknown argument, recovery does not land on `RPAREN`
      rw [phi_new_error]
      have hs : (skip_to_newline (t :: ts)).length + 1 ≤ (t :: ts).length := by
        refine skip_to_newline_length_lt ?_ ?_ <;> rw [curType_cons]
        · intro hh; exact h3 (by simp [hh])
        · exact h2
      have hs2 := skip_to_newline_length_le
        (skip_to_newline (t :: ts))
      simp only [new_error, stack_w_cons, frame_w, List.length_cons] at hs ⊢
      omega
    · -- unknown argument, recovery lands on `RPAREN` (consume it)
      have hs : (skip_to_newline (t :: ts)).length + 1 ≤ (t :: ts).length := by
        refine skip_to_newline_length_lt ?_ ?_ <;> rw [curType_cons]
        · intro hh; exact h3 (by simp [hh])
        · exact h2
      have hn := nu_hat_le
        { new_error ⟨t :: ts, tree, errors, rest⟩ a "Expected argument expression" with
          tokens := adv (new_error ⟨t :: ts, tree, errors, rest⟩ a
            "Expected argument expression").tokens }
      simp only [phi, mu2, new_error, stack_w_cons, frame_w, adv_length,
        List.length_cons] at hs hn ⊢
      omega

/-- The statement loop of `PARSE_BLOCK` ends in a configuration of
potential strictly below `8·tokens + stack weight + 8` (the potential of a
`PARSE_BLOCK` entry at an ordinary current token). -/
theorem block_loop_phi_le (b fp : Int) (rest : List Frame) :
    ∀ (ts : List Token) (tree : PTree) (errors : List PError),
      phi (block_loop b fp rest ts tree errors) <
        8 * ts.length + (8 + stack_w rest) := by
  intro ts
  induction ts with
  | nil =>
    intro tree errors
    simp only [block_loop]
    rw [phi_new_error]
    simp [skip_to_newline]
  | cons t ts ih =>
    intro tree errors
    simp only [block_loop]
    split_ifs with h1 h2 h3 hc h4 h5 h6 h7
    · -- `RBRACE`: pop the loop, consume the brace
      have hn := nu_hat_le ⟨ts, tree, errors, rest⟩
      simp only [phi, mu2, List.length_cons]
      omega
    · -- `EOF`: report the missing brace, recover
      rw [phi_new_error]
      have hs := skip_to_newline_length_le (t :: ts)
      simp only [List.length_cons] at hs ⊢
      omega
    · -- comment trivia: preserved, loop on
      exact lt_of_lt_of_le (ih _ _)
        (by simp only [List.length_cons]; omega)
    · -- newline trivia: preserved, loop on
      exact lt_of_lt_of_le (ih _ _)
        (by simp only [List.length_cons]; omega)
    · -- `match`: push `PARSE_MATCH_STMT` with a `PARSE_BLOCK` continuation
      simp only [phi, mu2, nu_hat_cons, stack_w_cons, frame_w, frame_nu,
        curType_cons, h4, List.length_cons]
      split_ifs <;> omega
    · -- identifier: push `PARSE_STATEMENT` with a `PARSE_BLOCK` continuation
      simp only [phi, mu2, nu_hat_cons, stack_w_cons, frame_w, frame_nu,
        curType_cons, h5, List.length_cons]
      split_ifs <;> omega
    · -- unknown token: recovery lands strictly later, inside the block
      rw [phi_new_error]
      have hs : (skip_to_newline (t :: ts)).length + 1 ≤ (t :: ts).length := by
        refine skip_to_newline_length_lt ?_ ?_ <;> rw [curType_cons]
        · intro hh; exact h3 (by simp [hh])
        · exact h2
      simp only [List.length_cons] at hs ⊢
      omega
    · -- recovery landed on `EOF`: report the missing brace as well
      rw [phi_new_error]
      have hs : (skip_to_newline (t :: ts)).length + 1 ≤ (t :: ts).length := by
        refine skip_to_newline_length_lt ?_ ?_ <;> rw [curType_cons]
        · intro hh; exact h3 (by simp [hh])
        · exact h2
      have hs2 := skip_to_newline_length_le (skip_to_newline (t :: ts))
      simp only [new_error, stack_w_cons, frame_w, List.length_cons] at hs hs2 ⊢
      omega
    · -- recovery landed on `RBRACE`: consume it
      have hs : (skip_to_newline (t :: ts)).length + 1 ≤ (t :: ts).length := by
        refine skip_to_newline_length_lt ?_ ?_ <;> rw [curType_cons]
        · intro hh; exact h3 (by simp [hh])
        · exact h2
      have hn := nu_hat_le
        { new_error ⟨t :: ts, tree, errors, rest⟩ b "Unexpected token in block" with
          tokens := adv (new_error ⟨t :: ts, tree, errors, rest⟩ b
            "Unexpected token in block").tokens }
      simp only [phi, mu2, new_error, stack_w_cons, frame_w, adv_length,
        List.length_cons] at hs hn ⊢
      omega

/-- Refinement of `block_loop_phi_le` when the loop is entered at a
`NEWLINE` or `EOF` current token (where the head potential is switched
off). -/
theorem block_loop_phi_nl (b fp : Int) (rest : List Frame)
    (ts : List Token) (tree : PTree) (errors : List PError)
    (h : curType ts = .NEWLINE ∨ curType ts = .EOF) :
    phi (block_loop b fp rest ts tree errors) <
      8 * ts.length + (2 + stack_w rest) := by
  cases ts with
  | nil =>
    simp only [block_loop]
    rw [phi_new_error]
    simp [skip_to_newline]
  | cons t ts =>
    rw [curType_cons] at h
    rcases h with h | h
    · -- `NEWLINE`: the loop consumes it and continues
      have hr : ¬(t.type = .RBRACE) := by simp [h]
      have he : ¬(t.type = .EOF) := by simp [h]
      have htr : (t.type = .COMMENT || t.type = .NEWLINE) = true := by simp [h]
      have hcc : ¬(t.type = .COMMENT) := by simp [h]
      simp only [block_loop]
      rw [if_neg hr, if_neg he, if_pos htr, if_neg hcc]
      refine lt_of_lt_of_le (block_loop_phi_le b fp rest ts _ _) ?_
      simp only [List.length_cons]
      omega
    · -- `EOF`: report the missing brace, recover without consuming
      have hr : ¬(t.type = .RBRACE) := by simp [h]
      simp only [block_loop]
      rw [if_neg hr, if_pos h]
      rw [phi_new_error]
      have hs := skip_to_newline_length_le (t :: ts)
      simp only [List.length_cons] at hs ⊢
      omega

/-- The arm loop of `PARSE_MATCH_EXPR` step 1 ends in a configuration of
strictly smaller potential than the configuration it was entered from. -/
theorem me1_loop_phi (m : Int) (rest : List Frame) :
    ∀ (ts : List Token) (tree : PTree) (errors : List PError),
      phi (me1_loop m rest ts tree errors) <
        8 * ts.length + (2 + stack_w rest) := by
  intro ts
  induction ts with
  | nil =>
    intro tree errors
    have hn := @nu_hat_eq_zero ⟨[], tree, errors, rest⟩
      (Or.inr curType_nil)
    simp only [me1_loop, phi, mu2]
    omega
  | cons t ts ih =>
    intro tree errors
    simp only [me1_loop]
    split_ifs with h1 h2 h3 hc
    · -- `RBRACE`: pop the loop, consume the brace
      have hn := nu_hat_le ⟨ts, tree, errors, rest⟩
      simp only [phi, mu2, List.length_cons]
      omega
    · -- `EOF`: pop the loop without consuming
      have hn := @nu_hat_eq_zero ⟨t :: ts, tree, errors, rest⟩
        (Or.inr (by rw [curType_cons]; exact h2))
      simp only [phi, mu2, List.length_cons]
      omega
    · -- comment trivia: preserved, loop on
      exact lt_of_lt_of_le (ih _ _)
        (by simp only [List.length_cons]; omega)
    · -- newline trivia: preserved, loop on
      exact lt_of_lt_of_le (ih _ _)
        (by simp only [List.length_cons]; omega)
    · -- pattern accepted, next token is not a colon: error recovery
      dsimp only
      rw [phi_new_error]
      have hs := skip_to_newline_length_le ts
      simp only [List.length_cons]
      omega
    · -- pattern and colon accepted, post-loop check eats a brace
      dsimp only
      simp only [phi, mu2, nu_hat_cons, stack_w_cons, frame_w, frame_nu,
        adv_length, List.length_cons]
      split_ifs <;> omega
    · -- pattern and colon accepted: push the arm body
      dsimp only
      simp only [phi, mu2, nu_hat_cons, stack_w_cons, frame_w, frame_nu,
        adv_length, List.length_cons]
      split_ifs <;> omega
    · -- pattern accepted, next token is not a colon: error recovery
      dsimp only
      rw [phi_new_error]
      have hs := skip_to_newline_length_le ts
      simp only [List.length_cons]
      omega
    · -- pattern and colon accepted, post-loop check eats a brace
      dsimp only
      simp only [phi, mu2, nu_hat_cons, stack_w_cons, frame_w, frame_nu,
        adv_length, List.length_cons]
      split_ifs <;> omega
    · -- pattern and colon accepted: push the arm body
      dsimp only
      simp only [phi, mu2, nu_hat_cons, stack_w_cons, frame_w, frame_nu,
        adv_length, List.length_cons]
      split_ifs <;> omega
    · -- pattern accepted, next token is not a colon: error recovery
      dsimp only
      rw [phi_new_error]
      have hs := skip_to_newline_length_le ts
      simp only [List.length_cons]
      omega
    · -- pattern and colon accepted, post-loop check eats a brace
      dsimp only
      simp only [phi, mu2, nu_hat_cons, stack_w_cons, frame_w, frame_nu,
        adv_length, List.length_cons]
      split_ifs <;> omega
    · -- pattern and colon accepted: push the arm body
      dsimp only
      simp only [phi, mu2, nu_hat_cons, stack_w_cons, frame_w, frame_nu,
        adv_length, List.length_cons]
      split_ifs <;> omega
    · -- not a pattern: record the diagnostic and recover
      dsimp only
      rw [phi_new_error]
      have hs : (skip_to_newline (t :: ts)).length + 1 ≤ (t :: ts).length := by
        refine skip_to_newline_length_lt ?_ ?_ <;> rw [curType_cons]
        · intro hh; exact h3 (by simp [hh])
        · exact h2
      simp only [List.length_cons] at hs ⊢
      omega
    · -- not a pattern (same exit, other side of the colon split)
      dsimp only
      rw [phi_new_error]
      have hs : (skip_to_newline (t :: ts)).length + 1 ≤ (t :: ts).length := by
        refine skip_to_newline_length_lt ?_ ?_ <;> rw [curType_cons]
        · intro hh; exact h3 (by simp [hh])
        · exact h2
      simp only [List.length_cons] at hs ⊢
      omega
    · -- not a pattern (same exit, other side of the post-loop split)
      dsimp only
      rw [phi_new_error]
      have hs : (skip_to_newline (t :: ts)).length + 1 ≤ (t :: ts).length := by
        refine skip_to_newline_length_lt ?_ ?_ <;> rw [curType_cons]
        · intro hh; exact h3 (by simp [hh])
        · exact h2
      simp only [List.length_cons] at hs ⊢
      omega

/-- The arm loop of `PARSE_MATCH_STMT` step 2 ends in a configuration of
strictly smaller potential than the configuration it was entered from. -/
theorem ms2_loop_phi (m : Int) (rest : List Frame) :
    ∀ (ts : List Token) (tree : PTree) (errors : List PError),
      phi (ms2_loop m rest ts tree errors) <
        8 * ts.length + (2 + stack_w rest) := by
  intro ts
  induction ts with
  | nil =>
    intro tree errors
    have hn := @nu_hat_eq_zero ⟨[], tree, errors, rest⟩
      (Or.inr curType_nil)
    simp only [ms2_loop, phi, mu2]
    omega
  | cons t ts ih =>
    intro tree errors
    simp only [ms2_loop]
    split_ifs with h1 h2 h3 hc
    · -- `RBRACE`: pop the loop, consume the brace
      have hn := nu_hat_le ⟨ts, tree, errors, rest⟩
      simp only [phi, mu2, List.length_cons]
      omega
    · -- `EOF`: pop the loop without consuming
      have hn := @nu_hat_eq_zero ⟨t :: ts, tree, errors, rest⟩
        (Or.inr (by rw [curType_cons]; exact h2))
      simp only [phi, mu2, List.length_cons]
      omega
    · -- comment trivia: preserved, loop on
      exact lt_of_lt_of_le (ih _ _)
        (by simp only [List.length_cons]; omega)
    · -- newline trivia: preserved, loop on
      exact lt_of_lt_of_le (ih _ _)
        (by simp only [List.length_cons]; omega)
    · -- pattern accepted, next token is not a colon: error recovery
      dsimp only
      rw [phi_new_error]
      have hs := skip_to_newline_length_le ts
      simp only [List.length_cons]
      omega
    · -- pattern and colon accepted, post-loop check eats a brace
      dsimp only
      simp only [phi, mu2, nu_hat_cons, stack_w_cons, frame_w, frame_nu,
        adv_length, List.length_cons]
      split_ifs <;> omega
    · -- pattern and colon accepted: push the arm body
      dsimp only
      simp only [phi, mu2, nu_hat_cons, stack_w_cons, frame_w, frame_nu,
        adv_length, List.length_cons]
      split_ifs <;> omega
    · -- pattern accepted, next token is not a colon: error recovery
      dsimp only
      rw [phi_new_error]
      have hs := skip_to_newline_length_le ts
      simp only [List.length_cons]
      omega
    · -- pattern and colon accepted, post-loop check eats a brace
      dsimp only
      simp only [phi, mu2, nu_hat_cons, stack_w_cons, frame_w, frame_nu,
        adv_length, List.length_cons]
      split_ifs <;> omega
    · -- pattern and colon accepted: push the arm body
      dsimp only
      simp only [phi, mu2, nu_hat_cons, stack_w_cons, frame_w, frame_nu,
        adv_length, List.length_cons]
      split_ifs <;> omega
    · -- pattern accepted, next token is not a colon: error recovery
      dsimp only
      rw [phi_new_error]
      have hs := skip_to_newline_length_le ts
      simp only [List.length_cons]
      omega
    · -- pattern and colon accepted, post-loop check eats a brace
      dsimp only
      simp only [phi, mu2, nu_hat_cons, stack_w_cons, frame_w, frame_nu,
        adv_length, List.length_cons]
      split_ifs <;> omega
    · -- pattern and colon accepted: push the arm body
      dsimp only
      simp only [phi, mu2, nu_hat_cons, stack_w_cons, frame_w, frame_nu,
        adv_length, List.length_cons]
      split_ifs <;> omega
    · -- pattern accepted, next token is not a colon: error recovery
      dsimp only
      rw [phi_new_error]
      have hs := skip_to_newline_length_le ts
      simp only [List.length_cons]
      omega
    · -- pattern and colon accepted, post-loop check eats a brace
      dsimp only
      simp only [phi, mu2, nu_hat_cons, stack_w_cons, frame_w, frame_nu,
        adv_length, List.length_cons]
      split_ifs <;> omega
    · -- pattern and colon accepted: push the arm body
      dsimp only
      simp only [phi, mu2, nu_hat_cons, stack_w_cons, frame_w, frame_nu,
        adv_length, List.length_cons]
      split_ifs <;> omega
    · -- not a pattern: record the diagnostic and recover
      dsimp only
      rw [phi_new_error]
      have hs : (skip_to_newline (t :: ts)).length + 1 ≤ (t :: ts).length := by
        refine skip_to_newline_length_lt ?_ ?_ <;> rw [curType_cons]
        · intro hh; exact h3 (by simp [hh])
        · exact h2
      simp only [List.length_cons] at hs ⊢
      omega
    · -- not a pattern (same exit, other side of the colon split)
      dsimp only
      rw [phi_new_error]
      have hs : (skip_to_newline (t :: ts)).length + 1 ≤ (t :: ts).length := by
        refine skip_to_newline_length_lt ?_ ?_ <;> rw [curType_cons]
        · intro hh; exact h3 (by simp [hh])
        · exact h2
      simp only [List.length_cons] at hs ⊢
      omega
    · -- not a pattern (same exit, other side of the post-loop split)
      dsimp only
      rw [phi_new_error]
      have hs : (skip_to_newline (t :: ts)).length + 1 ≤ (t :: ts).length := by
        refine skip_to_newline_length_lt ?_ ?_ <;> rw [curType_cons]
        · intro hh; exact h3 (by simp [hh])
        · exact h2
      simp only [List.length_cons] at hs ⊢
      omega

theorem nu_hat_of_stack {cfg : Cfg} {f : Frame} {rest : List Frame}
    (h : cfg.stack = f :: rest) :
    nu_hat cfg =
      if curType cfg.tokens = .NEWLINE ∨ curType cfg.tokens = .EOF then 0
      else frame_nu f.state := by
  unfold nu_hat
  rw [h]

theorem phi_of_stack {cfg : Cfg} {f : Frame} {rest : List Frame}
    (h : cfg.stack = f :: rest) :
    phi cfg = 8 * cfg.tokens.length + (frame_w f.state + stack_w rest) +
      3 * (if curType cfg.tokens = .NEWLINE ∨ curType cfg.tokens = .EOF then 0
           else frame_nu f.state) := by
  simp only [phi, mu2, h, stack_w_cons, nu_hat_of_stack h]
  omega

theorem sy_length_le (ts : List Token) :
    (shunting_yard ts).2.length ≤ ts.length :=
  sy_go_length_le ts [] []

/-- The `PARSE` step strictly decreases the potential. -/
theorem step_parse_phi (f : Frame) (rest : List Frame) (cfg : Cfg)
    (hstk : cfg.stack = f :: rest) (hf : f.state = .PARSE) :
    phi (step_parse f rest cfg) < phi cfg := by
  rw [phi_of_stack hstk, hf]
  simp only [frame_w, frame_nu]
  generalize hk : (if curType cfg.tokens = TokType.NEWLINE ∨
    curType cfg.tokens = TokType.EOF then 0 else 2) = k
  simp only [step_parse]
  have hle := consume_trivia_length_le f.parent cfg.tokens cfg.tree
  have hcas := consume_trivia_cases f.parent cfg.tokens cfg.tree
  have hhd := consume_trivia_head f.parent cfg.tokens cfg.tree
  split_ifs with h1 h2
  · -- `EOF` after trivia: pop the frame
    have hz := @nu_hat_eq_zero
      ⟨(consume_trivia cfg.tokens cfg.tree f.parent).1,
        (consume_trivia cfg.tokens cfg.tree f.parent).2, cfg.errors, rest⟩
      (Or.inr h1)
    simp only [phi, mu2]
    omega
  · -- identifier after trivia: push `PARSE_STATEMENT` over `PARSE`
    have hni : ¬(curType (consume_trivia cfg.tokens cfg.tree f.parent).1 =
        .NEWLINE ∨
        curType (consume_trivia cfg.tokens cfg.tree f.parent).1 = .EOF) := by
      rw [h2]; simp
    simp only [phi, mu2, nu_hat_cons, stack_w_cons, frame_w, frame_nu]
    rw [if_neg hni]
    rcases hcas with hceq | hclt
    · have hni2 : ¬(curType cfg.tokens = .NEWLINE ∨
          curType cfg.tokens = .EOF) := by
        rw [← hceq]; exact hni
      rw [if_neg hni2] at hk
      rw [hceq]
      omega
    · omega
  · -- anything else after trivia: report and recover
    simp only [phi_new_error]
    have hsk : (skip_to_newline
        (consume_trivia cfg.tokens cfg.tree f.parent).1).length + 1 ≤
        (consume_trivia cfg.tokens cfg.tree f.parent).1.length :=
      skip_to_newline_length_lt hhd h1
    omega

/-- The `PARSE_STATEMENT` step strictly decreases the potential. -/
theorem step_statement_phi (f : Frame) (rest : List Frame) (cfg : Cfg)
    (hstk : cfg.stack = f :: rest) (hf : f.state = .PARSE_STATEMENT) :
    phi (step_statement f rest cfg) < phi cfg := by
  rw [phi_of_stack hstk, hf]
  simp only [frame_w, frame_nu]
  generalize hk : (if curType cfg.tokens = TokType.NEWLINE ∨
    curType cfg.tokens = TokType.EOF then 0 else 1) = k
  simp only [step_statement]
  split_ifs with h1 h2 h3 h4
  · -- not an identifier: report and recover
    simp only [phi_new_error]
    have hsk := skip_to_newline_length_le cfg.tokens
    omega
  · -- `id : (` — function declaration
    have hL : 1 ≤ cfg.tokens.length :=
      length_pos_of_curType (by rw [not_not.mp h1]; simp)
    have hL2 : 1 ≤ (adv cfg.tokens).length :=
      length_pos_of_curType (by rw [h2]; simp)
    simp only [phi, mu2, nu_hat_cons, stack_w_cons, frame_w, frame_nu,
      adv_length] at hL2 ⊢
    split_ifs <;> omega
  · -- `id : v` — variable declaration
    have hL : 1 ≤ cfg.tokens.length :=
      length_pos_of_curType (by rw [not_not.mp h1]; simp)
    have hL2 : 1 ≤ (adv cfg.tokens).length :=
      length_pos_of_curType (by rw [h2]; simp)
    simp only [phi, mu2, nu_hat_cons, stack_w_cons, frame_w, frame_nu,
      adv_length] at hL2 ⊢
    split_ifs <;> omega
  · -- `id (` — call expression
    have hL : 1 ≤ cfg.tokens.length :=
      length_pos_of_curType (by rw [not_not.mp h1]; simp)
    simp only [phi, mu2, nu_hat_cons, stack_w_cons, frame_w, frame_nu,
      adv_length]
    split_ifs <;> omega
  · -- `id` without `:` or `(`: report and recover
    have hL : 1 ≤ cfg.tokens.length :=
      length_pos_of_curType (by rw [not_not.mp h1]; simp)
    simp only [phi_new_error]
    have hsk := skip_to_newline_length_le (adv cfg.tokens)
    simp only [adv_length] at hsk ⊢
    omega

/-- The `PARSE_FUNCTION_DECL` step strictly decreases the potential. -/
theorem step_function_decl_phi (f : Frame) (rest : List Frame) (cfg : Cfg)
    (hstk : cfg.stack = f :: rest) (hf : f.state = .PARSE_FUNCTION_DECL) :
    phi (step_function_decl f rest cfg) < phi cfg := by
  rw [phi_of_stack hstk, hf]
  simp only [frame_w, frame_nu]
  generalize hk : (if curType cfg.tokens = TokType.NEWLINE ∨
    curType cfg.tokens = TokType.EOF then 0 else 2) = k
  simp only [step_function_decl]
  split_ifs with h1
  · simp only [phi_new_error]
    have hsk := skip_to_newline_length_le cfg.tokens
    omega
  · simp only [phi, mu2, nu_hat_cons, stack_w_cons, frame_w, frame_nu]
    split_ifs with hcond
    · omega
    · rw [if_neg hcond] at hk
      omega

/-- The `PARSE_VAR_DECL` step strictly decreases the potential. -/
theorem step_var_decl_phi (f : Frame) (rest : List Frame) (cfg : Cfg)
    (hstk : cfg.stack = f :: rest) (hf : f.state = .PARSE_VAR_DECL) :
    phi (step_var_decl f rest cfg) < phi cfg := by
  rw [phi_of_stack hstk, hf]
  simp only [frame_w, frame_nu]
  generalize hk : (if curType cfg.tokens = TokType.NEWLINE ∨
    curType cfg.tokens = TokType.EOF then 0 else 2) = k
  simp only [step_var_decl]
  split_ifs with h1
  · simp only [phi_new_error]
    have hsk := skip_to_newline_length_le cfg.tokens
    omega
  · simp only [phi, mu2, nu_hat_cons, stack_w_cons, frame_w, frame_nu]
    split_ifs with hcond
    · omega
    · rw [if_neg hcond] at hk
      omega

/-- The `PARSE_PARAM_LIST` step strictly decreases the potential. -/
theorem step_param_list_phi (f : Frame) (rest : List Frame) (cfg : Cfg)
    (hstk : cfg.stack = f :: rest) (hf : f.state = .PARSE_PARAM_LIST) :
    phi (step_param_list f rest cfg) < phi cfg := by
  rw [phi_of_stack hstk, hf]
  simp only [frame_w, frame_nu]
  generalize hk : (if curType cfg.tokens = TokType.NEWLINE ∨
    curType cfg.tokens = TokType.EOF then 0 else 1) = k
  simp only [step_param_list]
  split_ifs with h1 h2
  · -- no `'('`: report and recover
    simp only [phi_new_error]
    have hsk := skip_to_newline_length_le cfg.tokens
    omega
  · -- `'('` trivia `')'`: both parens consumed
    have hL : 1 ≤ cfg.tokens.length :=
      length_pos_of_curType (by rw [not_not.mp h1]; simp)
    have hT := consume_trivia_length_le
      (add_node cfg.tree (create_nonterminal_node ParseNodeType.NODE_PARAM_LIST)).1
      (adv cfg.tokens)
      (add_child (add_node cfg.tree (create_nonterminal_node ParseNodeType.NODE_PARAM_LIST)).2 f.parent (add_node cfg.tree (create_nonterminal_node ParseNodeType.NODE_PARAM_LIST)).1)
    have hn := nu_hat_le
      ⟨adv (consume_trivia (adv cfg.tokens) (add_child (add_node cfg.tree (create_nonterminal_node ParseNodeType.NODE_PARAM_LIST)).2 f.parent (add_node cfg.tree (create_nonterminal_node ParseNodeType.NODE_PARAM_LIST)).1) (add_node cfg.tree (create_nonterminal_node ParseNodeType.NODE_PARAM_LIST)).1).1,
        (consume_trivia (adv cfg.tokens) (add_child (add_node cfg.tree (create_nonterminal_node ParseNodeType.NODE_PARAM_LIST)).2 f.parent (add_node cfg.tree (create_nonterminal_node ParseNodeType.NODE_PARAM_LIST)).1) (add_node cfg.tree (create_nonterminal_node ParseNodeType.NODE_PARAM_LIST)).1).2,
        cfg.errors, rest⟩
    simp only [phi, mu2, adv_length] at hT hn ⊢
    omega
  · -- `'('` but no `')'` after the trivia: report and recover
    have hL : 1 ≤ cfg.tokens.length :=
      length_pos_of_curType (by rw [not_not.mp h1]; simp)
    have hT := consume_trivia_length_le
      (add_node cfg.tree (create_nonterminal_node ParseNodeType.NODE_PARAM_LIST)).1
      (adv cfg.tokens)
      (add_child (add_node cfg.tree (create_nonterminal_node ParseNodeType.NODE_PARAM_LIST)).2 f.parent (add_node cfg.tree (create_nonterminal_node ParseNodeType.NODE_PARAM_LIST)).1)
    simp only [phi_new_error]
    have hsk := skip_to_newline_length_le
      (consume_trivia (adv cfg.tokens) (add_child (add_node cfg.tree (create_nonterminal_node ParseNodeType.NODE_PARAM_LIST)).2 f.parent (add_node cfg.tree (create_nonterminal_node ParseNodeType.NODE_PARAM_LIST)).1) (add_node cfg.tree (create_nonterminal_node ParseNodeType.NODE_PARAM_LIST)).1).1
    simp only [adv_length] at hT ⊢
    omega

/-- The `PARSE_BLOCK` step strictly decreases the potential. -/
theorem step_block_phi (f : Frame) (rest : List Frame) (cfg : Cfg)
    (hstk : cfg.stack = f :: rest) (hf : f.state = .PARSE_BLOCK) :
    phi (step_block f rest cfg) < phi cfg := by
  rw [phi_of_stack hstk, hf]
  simp only [frame_w, frame_nu]
  generalize hk : (if curType cfg.tokens = TokType.NEWLINE ∨
    curType cfg.tokens = TokType.EOF then 0 else 2) = k
  simp only [step_block]
  split_ifs with h1 h2
  · -- first entry, no `'{'`: report and recover
    simp only [phi_new_error]
    have hsk := skip_to_newline_length_le cfg.tokens
    omega
  · -- first entry, `'{'` consumed, then the statement loop
    have hL : 1 ≤ cfg.tokens.length :=
      length_pos_of_curType (by rw [not_not.mp h2]; simp)
    refine lt_of_lt_of_le (block_loop_phi_le _ _ _ _ _ _) ?_
    simp only [adv_length]
    omega
  · -- resumed entry: the statement loop directly
    by_cases hnl : curType cfg.tokens = .NEWLINE ∨ curType cfg.tokens = .EOF
    · rw [if_pos hnl] at hk
      refine lt_of_lt_of_le (block_loop_phi_nl _ _ _ _ _ _ hnl) ?_
      omega
    · rw [if_neg hnl] at hk
      refine lt_of_lt_of_le (block_loop_phi_le _ _ _ _ _ _) ?_
      omega

/-- The `PARSE_EXPRESSION` step strictly decreases the potential. -/
theorem step_expression_phi (f : Frame) (rest : List Frame) (cfg : Cfg)
    (hstk : cfg.stack = f :: rest) (hf : f.state = .PARSE_EXPRESSION) :
    phi (step_expression f rest cfg) < phi cfg := by
  rw [phi_of_stack hstk, hf]
  simp only [frame_w, frame_nu]
  generalize hk : (if curType cfg.tokens = TokType.NEWLINE ∨
    curType cfg.tokens = TokType.EOF then 0 else 1) = k
  simp only [step_expression]
  split_ifs with h1 h2
  · -- a `match` expression: enter the dedicated states
    have hni : ¬(curType cfg.tokens = .NEWLINE ∨ curType cfg.tokens = .EOF) := by
      rw [h1]; simp
    rw [if_neg hni] at hk
    simp only [phi, mu2, nu_hat_cons, stack_w_cons, frame_w, frame_nu]
    split_ifs <;> omega
  · -- the sub-parser failed: report and recover
    simp only [phi_new_error]
    have hsy := sy_length_le cfg.tokens
    have hsk := skip_to_newline_length_le (shunting_yard cfg.tokens).2
    omega
  · -- the sub-parser succeeded: it consumed at least one token
    rcases sy_cases cfg.tokens with hlt | ⟨hts, hpfx⟩
    · have hn := nu_hat_le
        ⟨(shunting_yard cfg.tokens).2,
          (build_expr_tree cfg.tree (shunting_yard cfg.tokens).1 f.parent).2,
          cfg.errors, rest⟩
      simp only [phi, mu2]
      omega
    · exact absurd (by rw [hpfx, build_expr_tree_nil]) h2

/-- The `PARSE_CALL_ARGS` step strictly decreases the potential. -/
theorem step_call_args_phi (f : Frame) (rest : List Frame) (cfg : Cfg)
    (hstk : cfg.stack = f :: rest) (hf : f.state = .PARSE_CALL_ARGS) :
    phi (step_call_args f rest cfg) < phi cfg := by
  rw [phi_of_stack hstk, hf]
  simp only [frame_w, frame_nu]
  generalize hk : (if curType cfg.tokens = TokType.NEWLINE ∨
    curType cfg.tokens = TokType.EOF then 0 else 0) = k
  simp only [step_call_args]
  split_ifs with h1 h2
  · -- first entry, no `'('`: report and recover
    simp only [phi_new_error]
    have hsk := skip_to_newline_length_le cfg.tokens
    omega
  · -- first entry, `'('` consumed, then the argument loop
    have hL : 1 ≤ cfg.tokens.length :=
      length_pos_of_curType (by rw [not_not.mp h2]; simp)
    refine lt_of_lt_of_le (args_loop_phi _ _ _ _ _) ?_
    simp only [adv_length]
    omega
  · -- resumed entry: the argument loop directly
    refine lt_of_lt_of_le (args_loop_phi _ _ _ _ _) ?_
    omega

/-- The `PARSE_MATCH_EXPR_0` step strictly decreases the potential. -/
theorem step_match_expr_0_phi (f : Frame) (rest : List Frame) (cfg : Cfg)
    (hstk : cfg.stack = f :: rest) (hf : f.state = .PARSE_MATCH_EXPR_0) :
    phi (step_match_expr_0 f rest cfg) < phi cfg := by
  rw [phi_of_stack hstk, hf]
  simp only [frame_w, frame_nu]
  generalize hk : (if curType cfg.tokens = TokType.NEWLINE ∨
    curType cfg.tokens = TokType.EOF then 0 else 0) = k
  simp only [step_match_expr_0]
  by_cases h1 : curType cfg.tokens ≠ .MATCH
  · rw [if_pos h1]; simp only [phi_new_error]
    have hsk := skip_to_newline_length_le cfg.tokens
    omega
  · rw [if_neg h1]
    have hL : 1 ≤ cfg.tokens.length :=
      length_pos_of_curType (by rw [not_not.mp h1]; simp)
    by_cases hs1 : curType (adv cfg.tokens) = .IDENTIFIER
    · rw [if_pos hs1]
      dsimp only
      by_cases hlb : curType (adv (adv cfg.tokens)) ≠ .LBRACE
      · rw [if_pos hlb]; simp only [phi_new_error]
        have hsk := skip_to_newline_length_le (adv (adv cfg.tokens))
        simp only [adv_length] at hsk ⊢
        omega
      · rw [if_neg hlb]
        simp only [phi, mu2, nu_hat_cons, stack_w_cons, frame_w, frame_nu,
          adv_length]
        split_ifs <;> omega
    · rw [if_neg hs1]
      by_cases hs2 : (curType (adv cfg.tokens) = .TRUE ||
          curType (adv cfg.tokens) = .FALSE) = true
      · rw [if_pos hs2]
        dsimp only
        by_cases hlb : curType (adv (adv cfg.tokens)) ≠ .LBRACE
        · rw [if_pos hlb]; simp only [phi_new_error]
          have hsk := skip_to_newline_length_le (adv (adv cfg.tokens))
          simp only [adv_length] at hsk ⊢
          omega
        · rw [if_neg hlb]
          simp only [phi, mu2, nu_hat_cons, stack_w_cons, frame_w, frame_nu,
            adv_length]
          split_ifs <;> omega
      · rw [if_neg hs2]
        by_cases hs3 : curType (adv cfg.tokens) = .STRING
        · rw [if_pos hs3]
          dsimp only
          by_cases hlb : curType (adv (adv cfg.tokens)) ≠ .LBRACE
          · rw [if_pos hlb]; simp only [phi_new_error]
            have hsk := skip_to_newline_length_le (adv (adv cfg.tokens))
            simp only [adv_length] at hsk ⊢
            omega
          · rw [if_neg hlb]
            simp only [phi, mu2, nu_hat_cons, stack_w_cons, frame_w, frame_nu,
              adv_length]
            split_ifs <;> omega
        · rw [if_neg hs3]
          dsimp only
          simp only [phi_new_error]
          have hsk := skip_to_newline_length_le (adv cfg.tokens)
          simp only [adv_length] at hsk ⊢
          omega

/-- The `PARSE_MATCH_EXPR_1` step strictly decreases the potential. -/
theorem step_match_expr_1_phi (f : Frame) (rest : List Frame) (cfg : Cfg)
    (hstk : cfg.stack = f :: rest) (hf : f.state = .PARSE_MATCH_EXPR_1) :
    phi (step_match_expr_1 f rest cfg) < phi cfg := by
  rw [phi_of_stack hstk, hf]
  simp only [frame_w, frame_nu]
  generalize hk : (if curType cfg.tokens = TokType.NEWLINE ∨
    curType cfg.tokens = TokType.EOF then 0 else 0) = k
  simp only [step_match_expr_1]
  refine lt_of_lt_of_le (me1_loop_phi _ _ _ _ _) ?_
  omega

/-- The `PARSE_MATCH_STMT_0` step strictly decreases the potential. -/
theorem step_match_stmt_0_phi (f : Frame) (rest : List Frame) (cfg : Cfg)
    (hstk : cfg.stack = f :: rest) (hf : f.state = .PARSE_MATCH_STMT_0) :
    phi (step_match_stmt_0 f rest cfg) < phi cfg := by
  rw [phi_of_stack hstk, hf]
  simp only [frame_w, frame_nu]
  generalize hk : (if curType cfg.tokens = TokType.NEWLINE ∨
    curType cfg.tokens = TokType.EOF then 0 else 0) = k
  simp only [step_match_stmt_0]
  split_ifs with h1
  · simp only [phi_new_error]
    have hsk := skip_to_newline_length_le cfg.tokens
    omega
  · have hL : 1 ≤ cfg.tokens.length :=
      length_pos_of_curType (by rw [not_not.mp h1]; simp)
    simp only [phi, mu2, nu_hat_cons, stack_w_cons, frame_w, frame_nu,
      adv_length]
    split_ifs <;> omega

/-- The `PARSE_MATCH_STMT_1` step strictly decreases the potential. -/
theorem step_match_stmt_1_phi (f : Frame) (rest : List Frame) (cfg : Cfg)
    (hstk : cfg.stack = f :: rest) (hf : f.state = .PARSE_MATCH_STMT_1) :
    phi (step_match_stmt_1 f rest cfg) < phi cfg := by
  rw [phi_of_stack hstk, hf]
  simp only [frame_w, frame_nu]
  generalize hk : (if curType cfg.tokens = TokType.NEWLINE ∨
    curType cfg.tokens = TokType.EOF then 0 else 0) = k
  simp only [step_match_stmt_1]
  split_ifs with h1
  · simp only [phi_new_error]
    have hsk := skip_to_newline_length_le cfg.tokens
    omega
  · have hL : 1 ≤ cfg.tokens.length :=
      length_pos_of_curType (by rw [not_not.mp h1]; simp)
    simp only [phi, mu2, nu_hat_cons, stack_w_cons, frame_w, frame_nu,
      adv_length]
    split_ifs <;> omega

/-- The `PARSE_MATCH_STMT_2` step strictly decreases the potential. -/
theorem step_match_stmt_2_phi (f : Frame) (rest : List Frame) (cfg : Cfg)
    (hstk : cfg.stack = f :: rest) (hf : f.state = .PARSE_MATCH_STMT_2) :
    phi (step_match_stmt_2 f rest cfg) < phi cfg := by
  rw [phi_of_stack hstk, hf]
  simp only [frame_w, frame_nu]
  generalize hk : (if curType cfg.tokens = TokType.NEWLINE ∨
    curType cfg.tokens = TokType.EOF then 0 else 0) = k
  simp only [step_match_stmt_2]
  refine lt_of_lt_of_le (ms2_loop_phi _ _ _ _ _) ?_
  omega

/-- Every iteration of the parsing loop strictly decreases the potential. -/
theorem parse_step_phi {cfg cfg' : Cfg} (h : parse_step cfg = some cfg') :
    phi cfg' < phi cfg := by
  unfold parse_step at h
  cases hstk : cfg.stack with
  | nil => rw [hstk] at h; simp at h
  | cons f rest =>
    rw [hstk] at h
    simp only [Option.some.injEq] at h
    subst h
    cases hf : f.state
    · exact step_parse_phi f rest cfg hstk hf
    · exact step_statement_phi f rest cfg hstk hf
    · exact step_function_decl_phi f rest cfg hstk hf
    · exact step_var_decl_phi f rest cfg hstk hf
    · exact step_param_list_phi f rest cfg hstk hf
    · exact step_block_phi f rest cfg hstk hf
    · exact step_expression_phi f rest cfg hstk hf
    · exact step_call_args_phi f rest cfg hstk hf
    · exact step_match_expr_0_phi f rest cfg hstk hf
    · exact step_match_expr_1_phi f rest cfg hstk hf
    · exact step_match_stmt_0_phi f rest cfg hstk hf
    · exact step_match_stmt_1_phi f rest cfg hstk hf
    · exact step_match_stmt_2_phi f rest cfg hstk hf

/-- With gas exceeding the potential, the parsing loop reaches an empty
stack. -/
theorem parse_run_total :
    ∀ (n : Nat) (cfg : Cfg), phi cfg < n →
      ∃ cfg', parse_run n cfg = some cfg' ∧ cfg'.stack = [] := by
  intro n
  induction n with
  | zero => intro cfg h; exact absurd h (Nat.not_lt_zero _)
  | succ n ih =>
    intro cfg h
    cases hs : parse_step cfg with
    | none =>
      exact ⟨cfg, by simp [parse_run, hs], (parse_step_none_iff cfg).mp hs⟩
    | some c' =>
      have hlt := parse_step_phi hs
      obtain ⟨cfg', h1, h2⟩ := ih c' (by omega)
      exact ⟨cfg', by simp [parse_run, hs, h1], h2⟩

/-- **C7** (confirmed).  For every token stream (the embedding reads an
exhausted stream as the lexer's endless trailing `EOF`s), `parse`
terminates within its gas bound of `8 * tokens + 64` loop iterations —
linear in the number of tokens — returning a final configuration that
carries a parse tree and a (possibly empty) error list, and the parser's
explicit state stack is empty when `parse` returns. -/
theorem C7_parse_total (ts : List Token) :
    ∃ cfg', parse ts = some cfg' ∧ cfg'.stack = [] := by
  have h1 : (parse_init ts).tokens = ts := rfl
  have h2 : stack_w (parse_init ts).stack = 1 := rfl
  have hn := nu_hat_le (parse_init ts)
  have hphi : phi (parse_init ts) < ts.length * 8 + 64 := by
    simp only [phi, mu2, h1, h2]
    omega
  exact parse_run_total _ _ hphi

end Suru